import Mathlib

/-!
Verification of the report-parsing and CSV-diff core of the unitrust API.

The Python source is embedded shallowly over `List Char` strings:

* Python `str` methods (`strip`, `split`, `title`, `upper`, ...) are
  modelled for ASCII text, which is the only text the report pipeline
  produces (the text-extraction collaborator normalizes exotic whitespace
  before the core ever runs).
* The `re` patterns used by the parsers are embedded as explicit
  backtracking matchers that follow the engine's priority order
  (leftmost, greedy tries longest first, lazy tries shortest first);
  determinizations are only applied where the neighbouring character
  classes are disjoint, and each one is justified in a comment.
* CPython `float` arithmetic is modelled exactly: a string parses to an
  exact rational which is rounded to the nearest IEEE-754 binary64 value
  (ties to even); arithmetic rounds the exact rational result the same
  way.  The model covers the normal range, which contains every value in
  this development; exponent / underscore / inf / nan literal forms are
  outside the model.
-/

set_option maxRecDepth 20000
set_option maxHeartbeats 4000000

namespace Unitrust

abbrev Str := List Char

/-- ASCII whitespace, as matched by Python's `str.strip` and `re` `\s`
(restricted to ASCII input). -/
def isPySpace (c : Char) : Bool :=
  c = ' ' || c = '\t' || c = '\n' || c = '\r' || c = '\x0b' || c = '\x0c'

def isDigitC (c : Char) : Bool := '0' ≤ c && c ≤ '9'

def isUpperC (c : Char) : Bool := 'A' ≤ c && c ≤ 'Z'

def isLowerC (c : Char) : Bool := 'a' ≤ c && c ≤ 'z'

def isAlphaC (c : Char) : Bool := isUpperC c || isLowerC c

/-- Python `str.rstrip()`: remove the maximal all-whitespace suffix. -/
def rstrip : Str → Str
  | [] => []
  | c :: t =>
    match rstrip t with
    | [] => if isPySpace c then [] else [c]
    | r => c :: r

/-- Python `str.strip()`. -/
def pyStrip (l : Str) : Str := rstrip (l.dropWhile isPySpace)

def pyUpper (l : Str) : Str := l.map Char.toUpper

def pyLower (l : Str) : Str := l.map Char.toLower

def pyTitleGo : Bool → Str → Str
  | _, [] => []
  | prev, c :: t =>
    if isAlphaC c then
      (if prev then Char.toLower c else Char.toUpper c) :: pyTitleGo true t
    else c :: pyTitleGo false t

/-- Python `str.title()`: the first letter of each maximal letter run is
uppercased, the rest lowercased (ASCII model). -/
def pyTitle (l : Str) : Str := pyTitleGo false l

/-- Worker for `re.split(r"\s+", s)`: whitespace runs of length >= 1 are
separators.  First argument: currently inside a separator run. -/
def splitWsGo : Bool → Str → Str → List Str
  | _, cur, [] => [cur.reverse]
  | true, cur, c :: t =>
    if isPySpace c then splitWsGo true cur t else splitWsGo false [c] t
  | false, cur, c :: t =>
    if isPySpace c then cur.reverse :: splitWsGo true [] t
    else splitWsGo false (c :: cur) t

/-- `re.split(r"\s+", s)` (in the source always applied to stripped text). -/
def pySplitWs (l : Str) : List Str := splitWsGo false [] l

/-- Worker for `re.split(r"\s{2,}", s)`: maximal whitespace runs of length
>= 2 are separators; a lone whitespace character stays inside its chunk. -/
def split2WsGo : Bool → Str → Str → List Str
  | _, cur, [] => [cur.reverse]
  | true, cur, c :: t =>
    if isPySpace c then split2WsGo true cur t else split2WsGo false [c] t
  | false, cur, c :: t =>
    if isPySpace c then
      match t with
      | [] => [(c :: cur).reverse]
      | d :: t' =>
        if isPySpace d then cur.reverse :: split2WsGo true [] (d :: t')
        else split2WsGo false (d :: c :: cur) t'
    else split2WsGo false (c :: cur) t

/-- `re.split(r"\s{2,}", s)`. -/
def pySplit2Ws (l : Str) : List Str := split2WsGo false [] l

def joinSep (sep : Str) : List Str → Str
  | [] => []
  | [x] => x
  | x :: xs => x ++ sep ++ joinSep sep xs

/-- Python `" ".join(xs)`. -/
def joinSpace (xs : List Str) : Str := joinSep [' '] xs

/-- Python `str.splitlines()` (ASCII line boundaries; `\r\n` counts once;
no trailing empty line for a terminal break). -/
def isLineBreak (c : Char) : Bool :=
  c = '\n' || c = '\r' || c = '\x0b' || c = '\x0c' || c = '\x1c' || c = '\x1d' || c = '\x1e'

def splitlinesGo : Str → Str → List Str
  | cur, [] => if cur.isEmpty then [] else [cur.reverse]
  | cur, '\r' :: '\n' :: t => cur.reverse :: splitlinesGo [] t
  | cur, c :: t =>
    if isLineBreak c then cur.reverse :: splitlinesGo [] t
    else splitlinesGo (c :: cur) t

def pySplitlines (t : Str) : List Str := splitlinesGo [] t

def natOfDigits (l : Str) : ℕ := l.foldl (fun a c => 10 * a + (c.toNat - 48)) 0

/-! ## Exact model of CPython float arithmetic -/

/-!
The rational arithmetic below is phrased through `mkRat` and the
numerator / denominator projections (rather than the `ℚ` field
operations) so that every value in this development can be evaluated by
the kernel; each operation is the exact textbook formula.
-/

/-- The rational n. -/
def qOfNat (n : Nat) : ℚ := mkRat n 1

/-- The rational n / d for an integer pair (a zero denominator yields 0,
matching `mkRat`; the sign moves to the numerator). -/
def qOfPair (n d : Int) : ℚ :=
  if d < 0 then mkRat (-n) (-d).toNat else mkRat n d.toNat

/-- Exact subtraction a - b. -/
def qsub (a b : ℚ) : ℚ := mkRat (a.num * b.den - b.num * a.den) (a.den * b.den)

/-- Exact division a / b. -/
def qdivE (a b : ℚ) : ℚ := qOfPair (a.num * b.den) (a.den * b.num)

/-- Absolute value via the numerator sign. -/
def qabs (q : ℚ) : ℚ := if q.num < 0 then Rat.neg q else q

/-- Exact rational value of an unsigned decimal literal: digits with an
optional fractional part, at least one digit overall. -/
def pyDecimalCore? (s : Str) : Option ℚ :=
  let ip := s.takeWhile isDigitC
  match s.dropWhile isDigitC with
  | [] => if ip.isEmpty then none else some (mkRat (natOfDigits ip) 1)
  | c0 :: r2 =>
    if c0 = '.' then
      let fp := r2.takeWhile isDigitC
      if (r2.dropWhile isDigitC).isEmpty && !(ip.isEmpty && fp.isEmpty) then
        some (mkRat (natOfDigits ip * 10 ^ fp.length + natOfDigits fp) (10 ^ fp.length))
      else none
    else none

/-- Exact rational value of a signed decimal literal accepted by Python
`float()` (the exponent / underscore / inf / nan forms are outside the
model; no value in this development uses them). -/
def pyDecimalQ? (s : Str) : Option ℚ :=
  match s with
  | c :: t =>
    if c = '+' then pyDecimalCore? t
    else if c = '-' then (pyDecimalCore? t).map Rat.neg
    else pyDecimalCore? s
  | [] => pyDecimalCore? []

/-- Fuel-driven base-2 logarithm (the fuel makes it structurally
recursive, so the kernel can evaluate it; `natLog2 n` = Nat.log2 n). -/
def log2F : Nat → Nat → Nat
  | 0, _ => 0
  | fuel + 1, n => if 2 ≤ n then log2F fuel (n / 2) + 1 else 0

def natLog2 (n : Nat) : Nat := log2F n n

/-- Round the positive rational n / d (n, d > 0) to the nearest binary64
value, ties to even: returns the 53-bit significand and the binary
exponent e with 2^e <= n/d < 2^(e+1). -/
def roundPos (n d : Nat) : Nat × Int :=
  let e : Int :=
    if d ≤ n then (natLog2 (n / d) : Int)
    else
      let f := natLog2 (d / n)
      if n * 2 ^ f = d then -(f : Int) else -(f : Int) - 1
  let ab : Nat × Nat :=
    match (52 : Int) - e with
    | .ofNat k => (n * 2 ^ k, d)
    | .negSucc k => (n, d * 2 ^ (k + 1))
  let q0 := ab.1 / ab.2
  let r := ab.1 % ab.2
  let m :=
    if 2 * r < ab.2 then q0
    else if ab.2 < 2 * r then q0 + 1
    else if q0 % 2 = 0 then q0 else q0 + 1
  (m, e)

/-- Round a rational to the nearest IEEE-754 binary64 value (ties to
even), returned as the exact rational that double represents.  Covers the
normal range, which contains every value in this development. -/
def roundD (q : ℚ) : ℚ :=
  if q.num = 0 then 0
  else
    let nd := roundPos q.num.natAbs q.den
    let mag : ℚ :=
      match nd.2 - 52 with
      | .ofNat k => mkRat ((nd.1 : Int) * 2 ^ k) 1
      | .negSucc k => mkRat (nd.1 : Int) (2 ^ (k + 1))
    if q.num < 0 then Rat.neg mag else mag

/-- Python `float(s)` for a plain decimal literal: correctly rounded. -/
def pyFloat? (s : Str) : Option ℚ := (pyDecimalQ? s).map roundD

/-- IEEE double subtraction of two model doubles. -/
def dSub (a b : ℚ) : ℚ := roundD (qsub a b)

/-- IEEE double division of two model doubles. -/
def dDiv (a b : ℚ) : ℚ := roundD (qdivE a b)

/-- The double written `0.01` in the source. -/
def d0_01 : ℚ := roundD (mkRat 1 100)

/-- The double written `0.3` in the source. -/
def d0_3 : ℚ := roundD (mkRat 3 10)

/-- Python `s.replace(",", "")`. -/
def stripCommas (s : Str) : Str := s.filter (fun c => c ≠ ',')

/-- helpers.to_float_premium: `float(s.replace(",", ""))`, None on failure. -/
def to_float_premium (s : Str) : Option ℚ := pyFloat? (stripCommas s)

/-! ## Field character classes of the underwriting patterns -/

/-- `^\d{9,10}[A-Z]?$` (helpers.is_valid_policy_number and the per-field
check of the column / token strategies). -/
def isPolicyShape (s : Str) : Bool :=
  let ds := s.takeWhile isDigitC
  (ds.length = 9 || ds.length = 10) &&
    match s.dropWhile isDigitC with
    | [] => true
    | [c] => isUpperC c
    | _ => false

/-- helpers.is_valid_policy_number: strip, then the 9-10 digit shape. -/
def is_valid_policy_number (s : Str) : Bool := isPolicyShape (pyStrip s)

def isPlanChar (c : Char) : Bool := isUpperC c || isDigitC c || c = '-'

/-- `^[A-Z0-9\-]+$` -/
def isPlanShape (s : Str) : Bool := !s.isEmpty && s.all isPlanChar

def isPremChar (c : Char) : Bool := isDigitC c || c = ','

/-- `^[\d,]+\.\d{2}$` -/
def isPremiumShape (s : Str) : Bool :=
  !(s.takeWhile isPremChar).isEmpty &&
    match s.dropWhile isPremChar with
    | [c0, a, b] => c0 = '.' && isDigitC a && isDigitC b
    | _ => false

/-- `^\d{6,7}$` -/
def isAgentIdShape (s : Str) : Bool := (s.length = 6 || s.length = 7) && s.all isDigitC

/-- The name / agent character class `[A-Z0-9 .,'\-&/]` of POLICY_RE and
UW_RE (the space is inside the class). -/
def isNameChar (c : Char) : Bool :=
  isUpperC c || isDigitC c || c = ' ' || c = '.' || c = ',' || c = '\'' ||
    c = '-' || c = '&' || c = '/'

/-! ## Backtracking matcher for POLICY_RE

`^\s*(?P<policy>\d{9,10}[A-Z]?)\s+(?P<name>[A-Z0-9 .,'\-&/]+?)\s+`
`(?P<plan>[A-Z0-9\-]+)\s+(?P<premium>[\d,]+\.\d{2})\s+`
`(?P<agent_id>\d{6,7})\s+(?P<agent>[A-Z0-9 .,'\-&/]+?)\s*$`

The search follows the engine's priority order.  The only places needing a
real search are the two lazy groups whose class contains the space
character (name, agent) and the whitespace runs feeding them; every other
`\s+` is followed by a class disjoint from whitespace, so only the maximal
run can succeed. -/

structure PolicyBody where
  nm : Str
  plan : Str
  premium : Str
  agent_id : Str
  agent : Str
deriving Repr, DecidableEq

structure PolicyG where
  policy : Str
  nm : Str
  plan : Str
  premium : Str
  agent_id : Str
  agent : Str
deriving Repr, DecidableEq

/-- `\s+` whose successor cannot match whitespace: exactly the maximal
nonempty whitespace run. -/
def wsPlus (s : Str) : Option Str :=
  match s with
  | c :: _ => if isPySpace c then some (s.dropWhile isPySpace) else none
  | [] => none

/-- A greedy nonempty class run; shorter greedy attempts would leave a
class character where the following `\s+` needs whitespace, so only the
maximal run is viable. -/
def classRun (p : Char → Bool) (s : Str) : Option (Str × Str) :=
  let run := s.takeWhile p
  if run.isEmpty then none else some (run, s.dropWhile p)

/-- `[\d,]+\.\d{2}`: the class run is maximal (a shorter run leaves a
class character where the dot is required). -/
def premiumSeg (s : Str) : Option (Str × Str) :=
  let run := s.takeWhile isPremChar
  if run.isEmpty then none
  else
    match s.dropWhile isPremChar with
    | c0 :: a :: b :: rest =>
      if c0 = '.' && isDigitC a && isDigitC b then
        some (run ++ c0 :: [a, b], rest)
      else none
    | _ => none

/-- `\d{6,7}` greedy: the digit run is maximal (both greedy widths leave a
digit under the following `\s+` otherwise), so its length must be 6 or 7. -/
def agentIdSeg (s : Str) : Option (Str × Str) :=
  let run := s.takeWhile isDigitC
  if run.length = 6 || run.length = 7 then some (run, s.dropWhile isDigitC) else none

/-- The lazy tail group `(?P<agent>[A-Z0-9 .,'\-&/]+?)\s*$`: the agent
grows from one character until the remainder is all whitespace. -/
def agentLazy (acc : Str) (rest : Str) : Option Str :=
  if !acc.isEmpty && rest.all isPySpace then some acc.reverse
  else
    match rest with
    | [] => none
    | c :: r => if isNameChar c then agentLazy (c :: acc) r else none

/-- The `\s+` before the lazy agent group: consumed greedily, then given
back one character at a time (the agent class contains the space
character, so a shorter whitespace run can still match). -/
def trailingGo : Str → Str → Option Str
  | [], _ => none
  | c :: w, r =>
    match agentLazy [] r with
    | some a => some a
    | none => trailingGo w (c :: r)

def trailingSearch (tail : Str) : Option Str :=
  trailingGo (tail.takeWhile isPySpace).reverse (tail.dropWhile isPySpace)

/-- The rest of POLICY_RE after the name group:
`\s+ plan \s+ premium \s+ agent_id \s+ agent \s*$`. -/
def contAfterName (nm : Str) (s : Str) : Option PolicyBody :=
  match wsPlus s with
  | none => none
  | some s1 =>
    match classRun isPlanChar s1 with
    | none => none
    | some (pl, s2) =>
      match wsPlus s2 with
      | none => none
      | some s3 =>
        match premiumSeg s3 with
        | none => none
        | some (pr, s4) =>
          match wsPlus s4 with
          | none => none
          | some s5 =>
            match agentIdSeg s5 with
            | none => none
            | some (aid, s6) =>
              match trailingSearch s6 with
              | none => none
              | some ag => some ⟨nm, pl, pr, aid, ag⟩

/-- The lazy name group: after each consumed class character the rest of
the pattern is tried before the name grows. -/
def nameLoop : Str → Str → Option PolicyBody
  | acc, c :: rest =>
    if isNameChar c then
      match contAfterName (acc ++ [c]) rest with
      | some b => some b
      | none => nameLoop (acc ++ [c]) rest
    else none
  | _, [] => none

/-- The `\s+` before the name: greedy, then given back one character at a
time (the name class contains the space character). -/
def nameWsGo : Str → Str → Option PolicyBody
  | [], _ => none
  | c :: w, r =>
    match nameLoop [] r with
    | some b => some b
    | none => nameWsGo w (c :: r)

def matchAfterPolicy (s : Str) : Option PolicyBody :=
  nameWsGo (s.takeWhile isPySpace).reverse (s.dropWhile isPySpace)

def takeExactDigits : Nat → Str → Option (Str × Str)
  | 0, s => some ([], s)
  | n + 1, c :: t =>
    if isDigitC c then (takeExactDigits n t).map (fun pr => (c :: pr.1, pr.2)) else none
  | _ + 1, [] => none

/-- One greedy alternative of `\d{9,10}[A-Z]?`. -/
def policyForm (n : Nat) (letter : Bool) (s : Str) : Option (Str × Str) :=
  match takeExactDigits n s with
  | none => none
  | some (ds, r) =>
    if letter then
      match r with
      | c :: r' => if isUpperC c then some (ds ++ [c], r') else none
      | [] => none
    else some (ds, r)

def tryForm (n : Nat) (letter : Bool) (s : Str) : Option PolicyG :=
  match policyForm n letter s with
  | none => none
  | some (pol, rest) =>
    match matchAfterPolicy rest with
    | none => none
    | some b => some ⟨pol, b.nm, b.plan, b.premium, b.agent_id, b.agent⟩

/-- POLICY_RE.match: the leading `\s*` is greedy and exact (whitespace and
digits are disjoint); the policy alternatives are tried in the engine's
order: 10 digits with letter, 10 without, 9 with, 9 without. -/
def POLICY_RE_match (line : Str) : Option PolicyG :=
  let s := line.dropWhile isPySpace
  tryForm 10 true s <|> tryForm 10 false s <|> tryForm 9 true s <|> tryForm 9 false s

/-! ## Backtracking matcher for UW_RE

`^\s*(?P<policy>\d{9,10}[A-Z]?)\s+(?P<name>[A-Z0-9 .,'\-&/]+?)\s{2,}`
`(?P<requirement>[^-].*?\S)\s{2,}(?P<agent_id>\d{6,7})\s+`
`(?P<agent>[A-Z0-9 .,'\-&/]+?)\s*$` -/

structure UwBody where
  nm : Str
  requirement : Str
  agent_id : Str
  agent : Str
deriving Repr, DecidableEq

structure UwG where
  policy : Str
  nm : Str
  requirement : Str
  agent_id : Str
  agent : Str
deriving Repr, DecidableEq

/-- After the requirement group: `\s{2,}` (exact: digits cannot be
whitespace, so only the maximal run, which must have length >= 2), then
`\d{6,7}`, then the shared lazy tail. -/
def uwAfterReq (nm req : Str) (s : Str) : Option UwBody :=
  if (s.takeWhile isPySpace).length < 2 then none
  else
    match agentIdSeg (s.dropWhile isPySpace) with
    | none => none
    | some (aid, s2) =>
      match trailingSearch s2 with
      | none => none
      | some ag => some ⟨nm, req, aid, ag⟩

/-- The lazy middle of `[^-].*?\S`: grows one character at a time; at each
step the closing `\S` takes the next character (when it is not whitespace)
and the rest of the pattern is tried first.  `.` does not match a newline
(lines produced by splitlines never contain one). -/
def reqGo (nm : Str) : Str → Str → Option UwBody
  | acc, c :: rest =>
    if isPySpace c then
      if c = '\n' then none else reqGo nm (acc ++ [c]) rest
    else
      match uwAfterReq nm (acc ++ [c]) rest with
      | some b => some b
      | none => if c = '\n' then none else reqGo nm (acc ++ [c]) rest
  | _, [] => none

/-- `[^-]` opens the requirement group (any character but the dash). -/
def reqSearch (nm : Str) : Str → Option UwBody
  | c :: rest => if c = '-' then none else reqGo nm [c] rest
  | [] => none

/-- `\s{2,}` before the requirement group: greedy, then given back one
character at a time while at least two stay consumed (`[^-]` matches
whitespace, so the requirement may begin inside the run). -/
def uwWs2Go (nm : Str) : Str → Str → Option UwBody
  | c1 :: c2 :: w, r =>
    match reqSearch nm r with
    | some b => some b
    | none => uwWs2Go nm (c2 :: w) (c1 :: r)
  | _, _ => none

def uwAfterName (nm : Str) (s : Str) : Option UwBody :=
  uwWs2Go nm (s.takeWhile isPySpace).reverse (s.dropWhile isPySpace)

/-- The lazy UW name group. -/
def uwNameLoop : Str → Str → Option UwBody
  | acc, c :: rest =>
    if isNameChar c then
      match uwAfterName (acc ++ [c]) rest with
      | some b => some b
      | none => uwNameLoop (acc ++ [c]) rest
    else none
  | _, [] => none

/-- The `\s+` before the UW name: greedy with give-back, as for POLICY_RE. -/
def uwNameWsGo : Str → Str → Option UwBody
  | [], _ => none
  | c :: w, r =>
    match uwNameLoop [] r with
    | some b => some b
    | none => uwNameWsGo w (c :: r)

def uwMatchAfterPolicy (s : Str) : Option UwBody :=
  uwNameWsGo (s.takeWhile isPySpace).reverse (s.dropWhile isPySpace)

def uwTryForm (n : Nat) (letter : Bool) (s : Str) : Option UwG :=
  match policyForm n letter s with
  | none => none
  | some (pol, rest) =>
    match uwMatchAfterPolicy rest with
    | none => none
    | some b => some ⟨pol, b.nm, b.requirement, b.agent_id, b.agent⟩

def UW_RE_match (line : Str) : Option UwG :=
  let s := line.dropWhile isPySpace
  uwTryForm 10 true s <|> uwTryForm 10 false s <|> uwTryForm 9 true s <|> uwTryForm 9 false s

/-! ## The underwriting line strategies and parse_report -/

/-- The record dict built by the underwriting parser (status added by the
caller for the two column/token strategies). -/
structure UwPre where
  policy_no : Str
  insured_name : Str
  plan : Option Str
  annual_premium : Option ℚ
  agent_id : Str
  writing_agent : Str
  requirement_desc : Option Str
deriving Repr, DecidableEq

structure UwRecord where
  status : Str
  policy_no : Str
  insured_name : Str
  plan : Option Str
  annual_premium : Option ℚ
  agent_id : Str
  writing_agent : Str
  requirement_desc : Option Str
deriving Repr, DecidableEq

/-- _parse_policy_line_by_columns: split on 2+ whitespace, need 6 fields,
validate policy / plan / premium / agent id shapes. -/
def parse_policy_line_by_columns (line : Str) : Option UwPre :=
  match pySplit2Ws (pyStrip line) with
  | policy :: nm :: plan :: premium :: agent_id :: agent :: _ =>
    if isPolicyShape policy && isPlanShape plan && isPremiumShape premium &&
        isAgentIdShape agent_id then
      some ⟨policy, pyTitle nm, some plan, to_float_premium premium, agent_id,
            pyTitle agent, none⟩
    else none
  | _ => none

/-- _parse_uw_line_by_columns: split on 2+ whitespace, need 5 fields,
validate policy / agent id shapes. -/
def parse_uw_line_by_columns (line : Str) : Option UwPre :=
  match pySplit2Ws (pyStrip line) with
  | policy :: nm :: req :: agent_id :: agent :: _ =>
    if isPolicyShape policy && isAgentIdShape agent_id then
      some ⟨policy, pyTitle nm, none, none, agent_id, pyTitle agent,
            some (pyStrip req)⟩
    else none
  | _ => none

/-- The rightmost token index matching `^\d{6,7}$` (the `max` of the
matching indices; ValueError when there is none). -/
def maxAgentIdx (parts : List Str) : Option Nat :=
  ((List.range parts.length).filter (fun i => isAgentIdShape (parts.getD i []))).getLast?

/-- _parse_policy_line_by_tokens. -/
def parse_policy_line_by_tokens (line : Str) : Option UwPre :=
  let parts := pySplitWs (pyStrip line)
  if parts.length < 6 then none
  else
    match parts with
    | [] => none
    | policy :: _ =>
      if !isPolicyShape policy then none
      else
        match maxAgentIdx parts with
        | none => none
        | some idx =>
          if idx < 1 then none
          else
            let premium := parts.getD (idx - 1) []
            if !isPremiumShape premium then none
            else if idx < 2 then none
            else
              let plan := parts.getD (idx - 2) []
              if !isPlanShape plan then none
              else
                let name_tokens := (parts.drop 1).take (idx - 2 - 1)
                if name_tokens.isEmpty then none
                else
                  let agent_tokens := parts.drop (idx + 1)
                  if agent_tokens.isEmpty then none
                  else
                    some ⟨policy, pyTitle (joinSpace name_tokens), some plan,
                          to_float_premium premium, parts.getD idx [],
                          pyTitle (joinSpace agent_tokens), none⟩

/-- Prefix test for `containsSub`. -/
def startsWithStr : Str → Str → Bool
  | [], _ => true
  | _ :: _, [] => false
  | c :: p, d :: s => c = d && startsWithStr p s

/-- Python substring containment `needle in hay`. -/
def containsSub (hay needle : Str) : Bool :=
  match hay with
  | [] => needle.isEmpty
  | _ :: t => startsWithStr needle hay || containsSub t needle

/-- `re.sub(r"\s+", " ", line)`. -/
def collapseWs : Bool → Str → Str
  | _, [] => []
  | prev, c :: t =>
    if isPySpace c then
      if prev then collapseWs true t else ' ' :: collapseWs true t
    else c :: collapseWs false t

/-- detect_status of parse_report: normalized, upper-cased substring
tests in the source's order. -/
def detect_status (line : Str) : Option Str :=
  let u := pyUpper (pyStrip (collapseWs false line))
  if u.isEmpty then none
  else if containsSub u ( "UNDERWRITING REQUIREMENTS".data ) && containsSub u ( "ADDED".data ) then
    some ( "UNDERWRITING REQUIREMENTS ADDED".data )
  else if containsSub u ( "UNDERWRITING REQUIREMENTS".data ) && containsSub u ( "UPDATED".data ) then
    some ( "UNDERWRITING REQUIREMENTS UPDATED".data )
  else if containsSub u ( "SUBMITTED".data ) then some ( "SUBMITTED".data )
  else if containsSub u ( "ISSUED".data ) then some ( "ISSUED".data )
  else if containsSub u ( "DELIVERED".data ) then some ( "DELIVERED".data )
  else if containsSub u ( "DECLINE".data ) || containsSub u ( "DECLINED".data ) then
    some ( "DECLINE".data )
  else if containsSub u ( "INCOMPLETE".data ) then some ( "INCOMPLETE".data )
  else if containsSub u ( "WITHDRAWN".data ) then some ( "WITHDRAWN".data )
  else none

/-- The membership test
`status in ("SUBMITTED","ISSUED","DELIVERED","DECLINE","INCOMPLETE","WITHDRAWN","UNKNOWN",None)`. -/
def uwStatusSet1 (st : Option Str) : Bool :=
  match st with
  | none => true
  | some s =>
    [ "SUBMITTED".data, "ISSUED".data, "DELIVERED".data, "DECLINE".data,
      "INCOMPLETE".data, "WITHDRAWN".data, "UNKNOWN".data ].contains s

/-- `status in ("UNDERWRITING REQUIREMENTS ADDED","UNDERWRITING REQUIREMENTS UPDATED")`. -/
def uwStatusSet2 (st : Option Str) : Bool :=
  match st with
  | none => false
  | some s =>
    [ "UNDERWRITING REQUIREMENTS ADDED".data,
      "UNDERWRITING REQUIREMENTS UPDATED".data ].contains s

def statusOrUnknown (st : Option Str) : Str := st.getD ( "UNKNOWN".data )

def mkUwRecord (st : Option Str) (p : UwPre) : UwRecord :=
  ⟨statusOrUnknown st, p.policy_no, p.insured_name, p.plan, p.annual_premium,
   p.agent_id, p.writing_agent, p.requirement_desc⟩

structure UwState where
  status : Option Str
  out : List UwRecord
deriving Repr, DecidableEq

/-- One iteration of the parse_report loop. -/
def uwStep (st : UwState) (raw : Str) : UwState :=
  let line := rstrip raw
  if (pyStrip line).isEmpty then st
  else
    match detect_status line with
    | some ns => ⟨some ns, st.out⟩
    | none =>
      let first : Option UwRecord :=
        if uwStatusSet1 st.status then
          match POLICY_RE_match line with
          | some g =>
            some ⟨statusOrUnknown st.status, g.policy, pyTitle g.nm, some g.plan,
                  to_float_premium g.premium, g.agent_id, pyTitle g.agent, none⟩
          | none =>
            match parse_policy_line_by_columns line with
            | some p => some (mkUwRecord st.status p)
            | none =>
              match parse_policy_line_by_tokens line with
              | some p => some (mkUwRecord st.status p)
              | none => none
        else none
      match first with
      | some r => ⟨st.status, st.out ++ [r]⟩
      | none =>
        if uwStatusSet2 st.status then
          match UW_RE_match line with
          | some g =>
            ⟨st.status,
             st.out ++ [⟨statusOrUnknown st.status, g.policy, pyTitle g.nm, none, none,
                         g.agent_id, pyTitle g.agent, some (pyStrip g.requirement)⟩]⟩
          | none =>
            match parse_uw_line_by_columns line with
            | some p => ⟨st.status, st.out ++ [mkUwRecord st.status p]⟩
            | none => st
        else st

def parse_report (text : Str) : List UwRecord :=
  ((pySplitlines text).foldl uwStep ⟨none, []⟩).out

/-! ## The returns parser -/

/-- config.REASON_START. -/
def REASON_START : List Str :=
  [ "NSF".data, "RETURN".data, "PAYMENT".data, "NO".data, "ACCT".data,
    "ACCOUNT".data, "CUSTOMER".data, "CUST".data, "NOT".data, "UNABLE".data,
    "LOCATE".data, "LOCAT".data, "INVALID".data, "REFER".data, "STOPPED".data,
    "CLOSED".data, "CODE".data, "NUMBER".data, "AUTH".data, "R98".data ]

/-- `tok.upper() in REASON_START or re.fullmatch(r'R\d{2}', tok.upper())`. -/
def isReasonTok (tok : Str) : Bool :=
  let u := pyUpper tok
  REASON_START.contains u ||
    match u with
    | ['R', a, b] => isDigitC a && isDigitC b
    | _ => false

/-- Index of the first reason token in a token list. -/
def findReasonIdx : List Str → Option Nat
  | [] => none
  | t :: ts => if isReasonTok t then some 0 else (findReasonIdx ts).map (· + 1)

/-- `re.fullmatch(r'\d{2}', t)`. -/
def isTwoDigits (s : Str) : Bool := s.length = 2 && s.all isDigitC

/-- `re.fullmatch(r'\d{2}/\d{2}/\d{2,4}', t)`. -/
def isDatePat (s : Str) : Bool :=
  match s with
  | a :: b :: '/' :: c :: d :: '/' :: ys =>
    isDigitC a && isDigitC b && isDigitC c && isDigitC d &&
      decide (2 ≤ ys.length) && decide (ys.length ≤ 4) && ys.all isDigitC
  | _ => false

/-- The first index i with tokens[i] two digits and tokens[i+1] a date. -/
def findBoundary : List Str → Option Nat
  | t1 :: t2 :: ts =>
    if isTwoDigits t1 && isDatePat t2 then some 0
    else (findBoundary (t2 :: ts)).map (· + 1)
  | _ => none

/-- `re.fullmatch(r'[\d,]*\.\d{2}', t)`. -/
def isAmtShape (s : Str) : Bool :=
  match s.dropWhile isPremChar with
  | '.' :: [a, b] => isDigitC a && isDigitC b
  | _ => false

def isLeap (y : Nat) : Bool := (y % 4 = 0 && y % 100 ≠ 0) || y % 400 = 0

def daysInMonth (y m : Nat) : Nat :=
  if m = 2 then (if isLeap y then 29 else 28)
  else if [4, 6, 9, 11].contains m then 30 else 31

def splitSlash : Str → List Str :=
  fun s =>
    let rec go (cur : Str) : Str → List Str
      | [] => [cur.reverse]
      | c :: t => if c = '/' then cur.reverse :: go [] t else go (c :: cur) t
    go [] s

def pad (w : Nat) (n : Nat) : Str :=
  let ds := Nat.toDigits 10 n
  List.replicate (w - ds.length) '0' ++ ds

def isoFormat (y m d : Nat) : Str :=
  pad 4 y ++ '-' :: pad 2 m ++ '-' :: pad 2 d

/-- A month or day component of strptime: one or two digits whose value is
in the given range (the strptime patterns `1[0-2]|0[1-9]|[1-9]` and
`3[01]|[12]\d|0[1-9]|[1-9]` amount to exactly this). -/
def mdComponent (lo hi : Nat) (s : Str) : Option Nat :=
  if (s.length = 1 || s.length = 2) && s.all isDigitC then
    let v := natOfDigits s
    if lo ≤ v && v ≤ hi then some v else none
  else none

/-- `datetime.strptime(s, "%m/%d/%y")`: two-digit year, 00-68 maps to the
2000s and 69-99 to the 1900s; the calendar date must exist. -/
def parseMDY2 (s : Str) : Option (Nat × Nat × Nat) :=
  match splitSlash s with
  | [ms, ds, ys] =>
    match mdComponent 1 12 ms, mdComponent 1 31 ds with
    | some m, some d =>
      if ys.length = 2 && ys.all isDigitC then
        let yv := natOfDigits ys
        let y := if yv ≤ 68 then 2000 + yv else 1900 + yv
        if d ≤ daysInMonth y m then some (y, m, d) else none
      else none
    | _, _ => none
  | _ => none

/-- `datetime.strptime(s, "%m/%d/%Y")`: exactly four year digits. -/
def parseMDY4 (s : Str) : Option (Nat × Nat × Nat) :=
  match splitSlash s with
  | [ms, ds, ys] =>
    match mdComponent 1 12 ms, mdComponent 1 31 ds with
    | some m, some d =>
      if ys.length = 4 && ys.all isDigitC then
        let y := natOfDigits ys
        if 1 ≤ y && d ≤ daysInMonth y m then some (y, m, d) else none
      else none
    | _, _ => none
  | _ => none

/-- helpers.date_to_iso: try "%m/%d/%y" then "%m/%d/%Y". -/
def date_to_iso (raw : Str) : Option Str :=
  let s := pyStrip raw
  match parseMDY2 s with
  | some ymd => some (isoFormat ymd.1 ymd.2.1 ymd.2.2)
  | none =>
    match parseMDY4 s with
    | some ymd => some (isoFormat ymd.1 ymd.2.1 ymd.2.2)
    | none => none

/-- Expect a literal prefix. -/
def dropLit : Str → Str → Option Str
  | [], s => some s
  | c :: p, d :: s => if c = d then dropLit p s else none
  | _ :: _, [] => none

/-- `\s+(.+)$`: greedy whitespace first; when nothing but whitespace
follows, one run character is given back to feed the greedy `.+`. -/
def restGroup (r : Str) : Option Str :=
  let w := r.takeWhile isPySpace
  let rest := r.dropWhile isPySpace
  if w.isEmpty then none
  else if !rest.isEmpty then some rest
  else if 2 ≤ w.length then some [w.getLastD ' ']
  else none

/-- `re.match(r'^\s*(\d{3})\s+(\d{10}[A-Z]?)\s+(.+)$', ln)`: the fixed
width groups are exact (an extra digit would sit under the following
`\s+`). -/
def anchorMatch (ln : Str) : Option (Str × Str × Str) :=
  match takeExactDigits 3 (ln.dropWhile isPySpace) with
  | none => none
  | some (cc, r1) =>
    match wsPlus r1 with
    | none => none
    | some r2 =>
      match takeExactDigits 10 r2 with
      | none => none
      | some (ds, r3) =>
        match r3 with
        | c :: r' =>
          if isUpperC c then
            match restGroup r' with
            | some g => some (cc, ds ++ [c], g)
            | none => (restGroup r3).map (fun g => (cc, ds, g))
          else (restGroup r3).map (fun g => (cc, ds, g))
        | [] => none

/-- `\s+(\d+)-(.+?)\s*$`: shared tail of the two header patterns. -/
def headerTail (s3 : Str) : Option Str :=
  match wsPlus s3 with
  | none => none
  | some s4 =>
    match classRun isDigitC s4 with
    | none => none
    | some (_, s5) =>
      match s5 with
      | '-' :: s6 => if s6.isEmpty then none else some (pyStrip s6)
      | _ => none

/-- `re.match(r'^\s*REGION:\s+([A-Z]{2})\s+(\d+)-(.+?)\s*$', ln)`; only
the code group and the stripped description are used by the caller. -/
def regionMatch (ln : Str) : Option (Str × Str) :=
  match dropLit ( "REGION:".data ) (ln.dropWhile isPySpace) with
  | none => none
  | some s1 =>
    match wsPlus s1 with
    | none => none
    | some s2 =>
      match s2 with
      | a :: b :: s3 =>
        if isUpperC a && isUpperC b then
          match headerTail s3 with
          | none => none
          | some desc => some ([a, b], desc)
        else none
      | _ => none

/-- `re.match(r'^\s*AGENCY:\s+([A-Z]{2}\d{3})\s+(\d+)-(.+?)\s*$', ln)`. -/
def agencyMatch (ln : Str) : Option (Str × Str) :=
  match dropLit ( "AGENCY:".data ) (ln.dropWhile isPySpace) with
  | none => none
  | some s1 =>
    match wsPlus s1 with
    | none => none
    | some s2 =>
      match s2 with
      | a :: b :: c :: d :: e :: s3 =>
        if isUpperC a && isUpperC b && isDigitC c && isDigitC d && isDigitC e then
          match headerTail s3 with
          | none => none
          | some desc => some ([a, b, c, d, e], desc)
        else none
      | _ => none

/-- The per-item fields computed from one matching line (everything of the
loop body below the anchor match). -/
structure RetCore where
  company_code : Str
  policy_no : Str
  insured_name : Str
  bill_day : Str
  issue_date : Option Str
  bill_no : Option Str
  amount : Option ℚ
  agency_code_line : Option Str
  agent_num : Option Str
  agent_name : Option Str
  reason : Option Str
deriving Repr, DecidableEq

def parseItemCore (ln : Str) : Option RetCore :=
  match anchorMatch ln with
  | none => none
  | some (cc, pol, rest0) =>
  let rest := pyStrip rest0
  let tokens := pySplitWs rest
  if tokens.length < 8 then none
  else
    match findBoundary tokens with
    | none => none
    | some idx =>
      let bill_no := tokens.get? (idx + 2)
      let amount : Option ℚ :=
        match tokens.get? (idx + 3) with
        | some ra =>
          if !ra.isEmpty && (isAmtShape ra || ra = ( ".00".data )) then
            if ra = ( ".00".data ) then some 0 else pyFloat? (stripCommas ra)
          else none
        | none => none
      let rest2 := tokens.drop (idx + 6)
      let ridx := findReasonIdx rest2
      let agent_name : Option Str :=
        match ridx with
        | some k =>
          if 0 < k then some (pyTitle (joinSpace (rest2.take k)))
          else if rest2.isEmpty then none
          else some (pyTitle (joinSpace rest2.dropLast))
        | none =>
          if rest2.isEmpty then none else some (pyTitle (joinSpace rest2.dropLast))
      let reason : Option Str :=
        match ridx with
        | some k => some (pyUpper (joinSpace (rest2.drop k)))
        | none =>
          match rest2.getLast? with
          | some t => some (pyUpper t)
          | none => none
      some ⟨cc, pol, pyTitle (joinSpace (tokens.take idx)), tokens.getD idx [],
            date_to_iso (tokens.getD (idx + 1) []), bill_no, amount,
            tokens.get? (idx + 4), tokens.get? (idx + 5), agent_name, reason⟩

structure RetItem where
  sectionName : Option Str
  company_code : Str
  policy_no : Str
  insured_name : Str
  bill_day : Str
  issue_date : Option Str
  bill_no : Option Str
  amount : Option ℚ
  agency_code_line : Option Str
  agent_num : Option Str
  agent_name : Option Str
  reason : Option Str
  page_region_code : Option Str
  page_region_desc : Option Str
  page_agency_code : Option Str
  page_agency_desc : Option Str
deriving Repr, DecidableEq

structure RetState where
  region_code : Option Str
  region_desc : Option Str
  agency_code : Option Str
  agency_desc : Option Str
  sectionName : Option Str
  items : List RetItem
  pre_notes : List RetItem
deriving Repr, DecidableEq

/-- One iteration of the parse_return_items loop. -/
def retStep (st : RetState) (ln : Str) : RetState :=
  match regionMatch ln with
  | some rd => { st with region_code := some rd.1, region_desc := some rd.2 }
  | none =>
    match agencyMatch ln with
    | some ad => { st with agency_code := some ad.1, agency_desc := some ad.2 }
    | none =>
      let u := pyStrip (pyUpper ln)
      let sec : Option Str :=
        if containsSub u ( "RETURNED ITEMS".data ) then some ( "RETURNED ITEMS".data )
        else if containsSub u ( "RETURNED PRE-NOTES".data ) ||
            containsSub u ( "RETURNED PRE NOTES".data ) then
          some ( "RETURNED PRE-NOTES".data )
        else st.sectionName
      match parseItemCore ln with
      | none => { st with sectionName := sec }
      | some c =>
        let item : RetItem :=
          ⟨sec, c.company_code, c.policy_no, c.insured_name, c.bill_day,
           c.issue_date, c.bill_no, c.amount, c.agency_code_line, c.agent_num,
           c.agent_name, c.reason, st.region_code, st.region_desc,
           st.agency_code, st.agency_desc⟩
        if sec = some ( "RETURNED PRE-NOTES".data ) then
          { st with sectionName := sec, pre_notes := st.pre_notes ++ [item] }
        else { st with sectionName := sec, items := st.items ++ [item] }

structure RetOut where
  returned_items : List RetItem
  returned_pre_notes : List RetItem
deriving Repr, DecidableEq

def retInit : RetState := ⟨none, none, none, none, none, [], []⟩

def parse_return_items (text : Str) : RetOut :=
  let fin := (pySplitlines text).foldl retStep retInit
  ⟨fin.items, fin.pre_notes⟩

/-! ## The CSV robust loader and diff engine

A parsed CSV row is the dict produced by the standard reader: column name
to value, where a value of `none` is Python `None` (a missing trailing
field).  The reader itself is the external `csv` library; the loader's own
logic from the row list onward is embedded. -/

abbrev Row := List (Str × Option Str)

/-- Python `row.get(k)` (None both for a missing key and a None value is
distinguished: `none` = missing, `some none` = present None). -/
def rowFind? (r : Row) (k : Str) : Option (Option Str) :=
  match r.find? (fun kv => kv.1 == k) with
  | some kv => some kv.2
  | none => none

/-- `(r.get(k) or "")`: missing and None and empty all collapse to "". -/
def valueOrEmpty (r : Row) (k : Str) : Str :=
  match rowFind? r k with
  | some (some v) => v
  | _ => []

/-- The per-row test of _mostly_in_first_column: only the first column
non-empty after stripping, every other column empty. -/
def onlyFirstFilled (keys : List Str) (r : Row) : Bool :=
  match keys with
  | [] => false
  | first :: rest =>
    !(pyStrip (valueOrEmpty r first)).isEmpty &&
      rest.all (fun k => (pyStrip (valueOrEmpty r k)).isEmpty)

/-- csv_parser._mostly_in_first_column: sample up to 50 rows; true when
the count of only-first-column rows reaches `total // 2` (integer
division). -/
def mostly_in_first_column (rows : List Row) : Bool :=
  match rows with
  | [] => false
  | r0 :: _ =>
    let keys := r0.map Prod.fst
    if keys.isEmpty then false
    else
      let total := min rows.length 50
      let bad := ((rows.take total).filter (onlyFirstFilled keys)).length
      decide (total / 2 ≤ bad)

/-- The step-2 branch condition of parse_csv_robust (line 141):
`if not rows or _mostly_in_first_column(rows)` — the double-quoting repair
(normalize_csv_content + re-parse) runs exactly when this holds. -/
def csvNeedsRepair (rows : List Row) : Bool :=
  rows.isEmpty || mostly_in_first_column rows

/-- The SPEC's wording of the repair trigger ("at least half of a sample
of up to 50 rows have only their first column non-empty"), written for
comparison with the source's `bad >= total // 2` test. -/
def atLeastHalfOnlyFirst (rows : List Row) : Bool :=
  match rows with
  | [] => false
  | r0 :: _ =>
    let keys := r0.map Prod.fst
    let total := min rows.length 50
    let bad := ((rows.take total).filter (onlyFirstFilled keys)).length
    decide (total ≤ 2 * bad)

/-- `s.replace('""', '"')`: non-overlapping, left to right. -/
def collapseDoubleQuotes : Str → Str
  | '"' :: '"' :: t => '"' :: collapseDoubleQuotes t
  | c :: t => c :: collapseDoubleQuotes t
  | [] => []

/-- csv_parser.normalize_csv_content, one line: strip one outer quote pair
and unfold doubled quotes when the line both starts and ends with a quote. -/
def normalizeLine (ln : Str) : Str :=
  if ln.head? == some '"' && ln.getLast? == some '"' then
    collapseDoubleQuotes ((ln.drop 1).dropLast)
  else ln

def normalize_csv_content (content : Str) : Str :=
  joinSep ['\n'] ((pySplitlines content).map normalizeLine)

/-- config.POLICY_COLUMN_CANDIDATES. -/
def POLICY_COLUMN_CANDIDATES : List Str :=
  [ "Policy".data, "Company".data, "PolicyNumber".data, "PolicyNo".data,
    "Policy_Number".data, "POLICY".data, "COMPANY".data ]

/-- The candidate list of detect_policy_column: the preferred names, then
every first-row column not already listed. -/
def candidateList (rows : List Row) : List Str :=
  match rows with
  | [] => POLICY_COLUMN_CANDIDATES
  | r0 :: _ =>
    (r0.map Prod.fst).foldl
      (fun acc k => if acc.contains k then acc else acc ++ [k])
      POLICY_COLUMN_CANDIDATES

/-- valid / total counts of a candidate over the first 100 rows; a row
counts only when the value is present, a string, and nonempty. -/
def colCounts (rows : List Row) (cand : Str) : Nat × Nat :=
  (rows.take 100).foldl
    (fun vt row =>
      match rowFind? row cand with
      | some (some v) =>
        if v.isEmpty then vt
        else if is_valid_policy_number v then (vt.1 + 1, vt.2 + 1)
        else (vt.1, vt.2 + 1)
      | _ => vt)
    (0, 0)

/-- The double score `valid_count / total_count` of a candidate (only
meaningful when the total is nonzero). -/
def colScore (rows : List Row) (cand : Str) : ℚ :=
  let vt := colCounts rows cand
  dDiv (qOfNat vt.1) (qOfNat vt.2)

/-- One fold step of the best-column loop of detect_policy_column. -/
def detStep (rows : List Row) (r0 : Row) (best : Option Str × ℚ) (cand : Str) :
    Option Str × ℚ :=
  if (rowFind? r0 cand).isSome then
    let vt := colCounts rows cand
    if vt.2 ≠ 0 then
      let score := dDiv (qOfNat vt.1) (qOfNat vt.2)
      if best.2 < score then (some cand, score) else best
    else best
  else best

/-- csv_parser.detect_policy_column. -/
def detect_policy_column (rows : List Row) : Option Str :=
  match rows with
  | [] => none
  | r0 :: _ =>
    let fin := (candidateList rows).foldl (detStep rows r0) (none, 0)
    if d0_3 ≤ fin.2 then fin.1 else none

/-- `value.strip().isdigit()` (ASCII). -/
def stripIsDigit (v : Str) : Bool :=
  let s := pyStrip v
  !s.isEmpty && s.all isDigitC

/-- The numeric fallback scan of parse_csv_robust step 3: the first
first-row column whose value is a purely numeric string. -/
def numericFallback (rows : List Row) : Option Str :=
  match rows with
  | [] => none
  | r0 :: _ =>
    match r0.find? (fun kv =>
        match kv.2 with
        | some v => stripIsDigit v
        | none => false) with
    | some kv => some kv.1
    | none => none

/-- Python truthiness of the `policy_column` variable (None and the empty
string are falsy). -/
def optTruthy (s : Option Str) : Bool :=
  match s with
  | some v => !v.isEmpty
  | none => false

/-- Step 3 of parse_csv_robust: detection, then the numeric fallback, then
the first column. -/
def choosePolicyColumn (rows : List Row) : Option Str :=
  let d := detect_policy_column rows
  if optTruthy d then d
  else
    match rows with
    | [] => d
    | r0 :: _ =>
      let pc1 :=
        match numericFallback rows with
        | some c => some c
        | none => d
      if optTruthy pc1 then pc1
      else
        match r0 with
        | kv :: _ => some kv.1
        | [] => pc1

/-- config.CSV_COMPARISON_FIELDS. -/
def CSV_COMPARISON_FIELDS : List Str :=
  [ "WritingAgent".data, "AgentName".data, "Company".data, "Status".data,
    "DOB".data, "PolicyDate".data, "PaidtoDate".data, "RecvDate".data,
    "LastName".data, "FirstName".data, "MI".data, "Plan".data, "Face".data,
    "Form".data, "Mode".data, "ModePrem".data, "Address1".data, "Address2".data,
    "Address3".data, "Address4".data, "State".data, "Zip".data, "Phone".data,
    "Email".data, "App Date".data, "WrtPct".data ]

/-- config.NUMERIC_FIELDS. -/
def NUMERIC_FIELDS : List Str := [ "Face".data, "ModePrem".data, "WrtPct".data ]

/-- `str(row.get(field, '')).strip().lower()` with None mapped to ''. -/
def normVal (r : Row) (f : Str) : Str :=
  match rowFind? r f with
  | some (some v) => pyLower (pyStrip v)
  | _ => []

/-- `float(norm.replace(',', '')) if norm else 0`. -/
def parseNum (s : Str) : Option ℚ :=
  if s.isEmpty then some 0 else pyFloat? (stripCommas s)

/-- The per-field comparison of compare_files_as_json_sync: numeric fields
flag when the double difference exceeds the double 0.01, falling back to
the string comparison when either float() raises; other fields compare the
normalized strings. -/
def fieldDiffers (oldR newR : Row) (f : Str) : Bool :=
  let o := normVal oldR f
  let n := normVal newR f
  if NUMERIC_FIELDS.contains f then
    match parseNum o, parseNum n with
    | some a, some b => decide (d0_01 < qabs (dSub a b))
    | _, _ => !(o == n)
  else !(o == n)

/-- `has_changes` of one common policy id: the loop or-accumulates the
per-field flags. -/
def hasChanges (oldR newR : Row) : Bool :=
  CSV_COMPARISON_FIELDS.any (fieldDiffers oldR newR)

/-- Insert into the policy map (a later row with the same key overwrites,
as for a Python dict comprehension). -/
def upsert (m : List (Str × Row)) (k : Str) (v : Row) : List (Str × Row) :=
  if m.any (fun kv => kv.1 == k) then
    m.map (fun kv => if kv.1 == k then (k, v) else kv)
  else m ++ [(k, v)]

/-- `{row['Policy']: row for row in l if row and row.get('Policy')}`. -/
def polMap (l : List Row) : List (Str × Row) :=
  l.foldl
    (fun m row =>
      match rowFind? row ( "Policy".data ) with
      | some (some p) => if !row.isEmpty && !p.isEmpty then upsert m p row else m
      | _ => m)
    []

def mapGet? (m : List (Str × Row)) (k : Str) : Option Row :=
  match m.find? (fun kv => kv.1 == k) with
  | some kv => some kv.2
  | none => none

def mapKeys (m : List (Str × Row)) : List Str := m.map Prod.fst

structure DiffOut where
  addedIds : List Str
  added : List Row
  modifiedIds : List Str
  modified : List Row
deriving Repr, DecidableEq

/-- The comparison core of compare_files_as_json_sync, applied to the two
already-parsed row lists (the surrounding function only fetches and parses
the snapshots).  Python iterates the id sets in an unspecified order; the
embedding uses the key-insertion order, which the claims (membership and
emptiness statements) do not depend on. -/
def compareRowLists (listNew listOld : List Row) : DiffOut :=
  let mNew := polMap listNew
  let mOld := polMap listOld
  let keysNew := mapKeys mNew
  let keysOld := mapKeys mOld
  let addedIds := keysNew.filter (fun k => !keysOld.contains k)
  let commonIds := keysNew.filter (fun k => keysOld.contains k)
  let modifiedIds := commonIds.filter
    (fun pid => hasChanges ((mapGet? mOld pid).getD []) ((mapGet? mNew pid).getD []))
  ⟨addedIds, addedIds.map (fun pid => (mapGet? mNew pid).getD []),
   modifiedIds, modifiedIds.map (fun pid => (mapGet? mNew pid).getD [])⟩

/-- The first whitespace-delimited token of a line. -/
def firstTok (l : Str) : Str :=
  (l.dropWhile isPySpace).takeWhile (fun c => !isPySpace c)

/-- The chunk that `split2WsGo` is building at the start of `s`. -/
def chunk0 : Str → Str
  | [] => []
  | c :: t =>
    if isPySpace c then
      match t with
      | [] => [c]
      | d :: t' => if isPySpace d then [] else c :: d :: chunk0 t'
    else c :: chunk0 t

/-! ## Concrete inputs used by the claim theorems -/

/-- A line on which the strict pattern and the token strategy disagree on
the agent id. -/
def c1Line : Str := ( "123456789 NAME AB 1.00 123456 X 2.00 654321 Y".data )

/-- The policy-activity scenario line of the specification. -/
def c1WitnessLine : Str :=
  ( "0108338110 SMITH JOHN A DSI5N 52.61 123456 DOE JANE".data )

/-- The strict-pattern groups of `c1WitnessLine`. -/
def c1WitnessG : PolicyG :=
  ⟨( "0108338110".data ), ( "SMITH JOHN A".data ), ( "DSI5N".data ),
   ( "52.61".data ), ( "123456".data ), ( "DOE JANE".data )⟩

/-- The token-strategy record of `c1WitnessLine` (the premium value is the
double closest to 52.61). -/
def c1WitnessR : UwPre :=
  ⟨( "0108338110".data ), ( "Smith John A".data ), some ( "DSI5N".data ),
   some (mkRat 3702099631186903 70368744177664), ( "123456".data ),
   ( "Doe Jane".data ), none⟩

/-- A returns item line preceded by no section header. -/
def c7Line : Str :=
  ( "110 0107680260 JOHN SMITH 05 08/22/2025 1234 150.00 AG01 998877 JANE DOE NSF PAYMENT".data )

/-- A pre-notes section header followed by the scenario item line. -/
def c7WitnessText : Str :=
  ( "RETURNED PRE-NOTES\n110 0107680260 JOHN SMITH 05 08/22/2025 1234 150.00 AG01 998877 JANE DOE NSF PAYMENT".data )

/-- The record parsed from the line of `c7WitnessText`. -/
def c7WitnessItem : RetItem :=
  ⟨some ( "RETURNED PRE-NOTES".data ), ( "110".data ), ( "0107680260".data ),
   ( "John Smith".data ), ( "05".data ), some ( "2025-08-22".data ),
   some ( "1234".data ), some (mkRat 150 1), some ( "AG01".data ),
   some ( "998877".data ), some ( "Jane Doe".data ), some ( "NSF PAYMENT".data ),
   none, none, none, none⟩

/-- An item line whose first bill-day/date boundary leaves only one
trailing token. -/
def c10Line : Str := ( "110 0123456789 A B C D E F 05 08/22/2025".data )

/-- The anchor remainder group of `c10Line`. -/
def c10Rest : Str := ( "A B C D E F 05 08/22/2025".data )

/-- A line that matches none of the report grammars. -/
def c9Line : Str := ( "~~~ noise 123 ~~~".data )

def c9UwState : UwState := ⟨some ( "SUBMITTED".data ), []⟩

/-- A parsed CSV row with both of its columns filled. -/
def c3Row0 : Row := [(( "A".data ), some ( "x".data )), (( "B".data ), some ( "y".data ))]

/-- A one-row set in which no sampled row has the only-first-column shape. -/
def c3Rows : List Row := [c3Row0]

/-- A one-row set whose single row has the only-first-column shape. -/
def c3wRows : List Row := [[(( "A".data ), some ( "x".data )), (( "B".data ), some [])]]

/-- A one-column CSV row holding a Face value. -/
def c4Row (v : Str) : Row := [(( "Face".data ), some v)]

/-- A one-row snapshot with a policy key and a numeric field. -/
def c6Rows : List Row :=
  [[(( "Policy".data ), some ( "123".data )), (( "Face".data ), some ( "1.00".data ))]]

/-- Ten rows whose Policy column holds exactly 3 valid policy numbers: a
30% score. -/
def c5Rows30 : List Row :=
  List.replicate 3 [(( "Policy".data ), some ( "123456789".data ))] ++
    List.replicate 7 [(( "Policy".data ), some ( "X".data ))]

/-- One hundred rows whose Code column holds 29 valid policy numbers and
71 plain numeric values: a 29% score, below the threshold. -/
def c5Rows29 : List Row :=
  List.replicate 71 [(( "Code".data ), some ( "12".data ))] ++
    List.replicate 29 [(( "Code".data ), some ( "123456789".data ))]

/-- A returns item line whose final token group starts with a reason
keyword (first reason token at position 0). -/
def c2Line : Str :=
  ( "110 0107680260 JOHN SMITH 05 08/22/2025 1234 150.00 AG01 998877 NSF PAYMENT".data )

/-- A returns item line whose final token group is an agent name followed
by a reason. -/
def c2WitnessLine : Str :=
  ( "110 0107680260 JOHN SMITH 05 08/22/2025 1234 150.00 AG01 998877 JANE DOE NSF PAYMENT".data )

/-- A two-line report: a status header and a policy-activity line. -/
def c8Text : Str :=
  ( "ISSUED\n0108338110 SMITH JOHN A DSI5N 52.61 123456 DOE JANE".data )

/-- The record parse_report extracts from `c8Text` (strict-regex path). -/
def c8Rec : UwRecord :=
  ⟨( "ISSUED".data ), ( "0108338110".data ), ( "Smith John A".data ),
   some ( "DSI5N".data ), some (mkRat 3702099631186903 70368744177664),
   ( "123456".data ), ( "Doe Jane".data ), none⟩

/-! ## General lemmas about the string helpers -/

theorem takeWhile_cons_pos {p : Char → Bool} {c : Char} (t : Str) (h : p c = true) :
    (c :: t).takeWhile p = c :: t.takeWhile p := by
  simp [List.takeWhile_cons, h]

theorem takeWhile_cons_neg {p : Char → Bool} {c : Char} (t : Str) (h : p c = false) :
    (c :: t).takeWhile p = [] := by
  simp [List.takeWhile_cons, h]

theorem takeWhile_append_all {p : Char → Bool} (l1 l2 : Str)
    (h : ∀ c ∈ l1, p c = true) :
    (l1 ++ l2).takeWhile p = l1 ++ l2.takeWhile p := by
  induction l1 with
  | nil => simp
  | cons c t ih =>
    have hc := h c (by simp)
    rw [List.cons_append, takeWhile_cons_pos _ hc, ih (fun x hx => h x (by simp [hx]))]
    simp

theorem isPySpace_false_of_digit {c : Char} (h : isDigitC c = true) :
    isPySpace c = false := by
  cases ht : isPySpace c
  · rfl
  · exfalso
    have hc : c = ' ' ∨ c = '\t' ∨ c = '\n' ∨ c = '\r' ∨ c = '\x0b' ∨ c = '\x0c' := by
      simpa [isPySpace, or_assoc] using ht
    rcases hc with rfl | rfl | rfl | rfl | rfl | rfl <;> exact absurd h (by decide)

theorem isPySpace_false_of_upper {c : Char} (h : isUpperC c = true) :
    isPySpace c = false := by
  cases ht : isPySpace c
  · rfl
  · exfalso
    have hc : c = ' ' ∨ c = '\t' ∨ c = '\n' ∨ c = '\r' ∨ c = '\x0b' ∨ c = '\x0c' := by
      simpa [isPySpace, or_assoc] using ht
    rcases hc with rfl | rfl | rfl | rfl | rfl | rfl <;> exact absurd h (by decide)

theorem rstrip_all_space {l : Str} (h : rstrip l = []) :
    ∀ c ∈ l, isPySpace c = true := by
  induction l with
  | nil => intro c hc; simp at hc
  | cons c t ih =>
    intro x hx
    rw [rstrip] at h
    rcases hrt : rstrip t with _ | ⟨r, rs⟩
    · rw [hrt] at h
      by_cases hc : isPySpace c
      · rcases List.mem_cons.1 hx with rfl | hxt
        · exact hc
        · exact ih hrt x hxt
      · simp [hc] at h
    · rw [hrt] at h; simp at h

/-- Removing the trailing whitespace does not change the leading
non-whitespace run. -/
theorem takeWhile_rstrip (l : Str) :
    (rstrip l).takeWhile (fun c => !isPySpace c) = l.takeWhile (fun c => !isPySpace c) := by
  induction l with
  | nil => rfl
  | cons c t ih =>
    rw [rstrip]
    cases hrt : rstrip t with
    | nil =>
      have hall := rstrip_all_space hrt
      have ht0 : t.takeWhile (fun c => !isPySpace c) = [] := by
        cases t with
        | nil => rfl
        | cons d ds => simp [List.takeWhile_cons, hall d (by simp)]
      cases hc : isPySpace c
      · simp [List.takeWhile_cons, hc, ht0]
      · simp [List.takeWhile_cons, hc]
    | cons r rs =>
      rw [hrt] at ih
      cases hc : isPySpace c
      · rw [takeWhile_cons_pos (r :: rs) (by simp [hc]), ih,
          takeWhile_cons_pos t (by simp [hc])]
      · rw [takeWhile_cons_neg (r :: rs) (by simp [hc]),
          takeWhile_cons_neg t (by simp [hc])]

theorem firstTok_pyStrip (l : Str) :
    (pyStrip l).takeWhile (fun c => !isPySpace c) = firstTok l := by
  unfold pyStrip firstTok
  exact takeWhile_rstrip _

/-! ## The policy group of POLICY_RE is the first token -/

theorem takeExactDigits_spec {n : Nat} {s ds r : Str}
    (h : takeExactDigits n s = some (ds, r)) :
    s = ds ++ r ∧ ∀ c ∈ ds, isDigitC c = true := by
  induction n generalizing s ds r with
  | zero =>
    simp only [takeExactDigits, Option.some_inj, Prod.mk.injEq] at h
    obtain ⟨rfl, rfl⟩ := h
    exact ⟨rfl, by intro c hc; simp at hc⟩
  | succ n ih =>
    cases s with
    | nil => simp [takeExactDigits] at h
    | cons c t =>
      cases hc : isDigitC c with
      | false => simp [takeExactDigits, hc] at h
      | true =>
        cases htd : takeExactDigits n t with
        | none => simp [takeExactDigits, hc, htd] at h
        | some pr =>
          simp only [takeExactDigits, hc, htd, if_true, Option.map_some,
            Option.some_inj, Prod.mk.injEq] at h
          obtain ⟨ht, hall⟩ :=
            ih (show takeExactDigits n t = some (pr.1, pr.2) from by rw [htd])
          obtain ⟨rfl, rfl⟩ := h
          refine ⟨by simp [ht], ?_⟩
          intro x hx
          rcases List.mem_cons.1 hx with rfl | hx'
          · exact hc
          · exact hall x hx'

theorem policyForm_spec {n : Nat} {letter : Bool} {s pol rest : Str}
    (h : policyForm n letter s = some (pol, rest)) :
    s = pol ++ rest ∧ ∀ c ∈ pol, isPySpace c = false := by
  cases htd : takeExactDigits n s with
  | none => simp [policyForm, htd] at h
  | some dsr =>
    obtain ⟨ds, r⟩ := dsr
    obtain ⟨hs, hall⟩ := takeExactDigits_spec htd
    cases letter with
    | false =>
      simp only [policyForm, htd, Bool.false_eq_true, if_false, Option.some_inj,
        Prod.mk.injEq] at h
      obtain ⟨rfl, rfl⟩ := h
      exact ⟨hs, fun c hc => isPySpace_false_of_digit (hall c hc)⟩
    | true =>
      simp only [policyForm, htd, if_true] at h
      cases r with
      | nil => simp at h
      | cons c r' =>
        cases hc : isUpperC c with
        | false => simp [hc] at h
        | true =>
          simp only [hc, if_true, Option.some_inj, Prod.mk.injEq] at h
          obtain ⟨rfl, rfl⟩ := h
          constructor
          · simp [hs]
          · intro x hx
            rcases List.mem_append.1 hx with hx' | hx'
            · exact isPySpace_false_of_digit (hall x hx')
            · rcases List.mem_singleton.1 hx' with rfl
              exact isPySpace_false_of_upper hc

theorem matchAfterPolicy_head {rest : Str} {b : PolicyBody}
    (h : matchAfterPolicy rest = some b) :
    ∃ c r', rest = c :: r' ∧ isPySpace c = true := by
  unfold matchAfterPolicy at h
  cases hrw : rest.takeWhile isPySpace with
  | nil => rw [hrw] at h; simp [nameWsGo] at h
  | cons c w =>
    cases rest with
    | nil => simp at hrw
    | cons d r' =>
      refine ⟨d, r', rfl, ?_⟩
      rw [List.takeWhile_cons] at hrw
      by_cases hd : isPySpace d
      · exact hd
      · simp [hd] at hrw

theorem tryForm_policy {n : Nat} {letter : Bool} {s : Str} {g : PolicyG}
    (h : tryForm n letter s = some g) :
    g.policy = s.takeWhile (fun c => !isPySpace c) := by
  cases hpf : policyForm n letter s with
  | none => simp [tryForm, hpf] at h
  | some pr =>
    obtain ⟨pol, rest⟩ := pr
    cases hb : matchAfterPolicy rest with
    | none => simp [tryForm, hpf, hb] at h
    | some b =>
      simp only [tryForm, hpf, hb, Option.some_inj] at h
      obtain ⟨hs, hall⟩ := policyForm_spec hpf
      obtain ⟨c, r', hrest, hc⟩ := matchAfterPolicy_head hb
      subst hs hrest
      rw [← h]
      rw [takeWhile_append_all pol (c :: r') (fun x hx => by simp [hall x hx])]
      rw [takeWhile_cons_neg r' (by simp [hc])]
      simp

theorem orElse_cases {α : Type} {a b : Option α} {x : α} (h : (a <|> b) = some x) :
    a = some x ∨ (a = none ∧ b = some x) := by
  cases a with
  | none => exact Or.inr ⟨rfl, h⟩
  | some y => exact Or.inl h

theorem chunk0_ws_one {c : Char} (hc : isPySpace c = true) : chunk0 [c] = [c] := by
  simp [chunk0, hc]

theorem chunk0_ws_ws {c d : Char} (t : Str) (hc : isPySpace c = true)
    (hd : isPySpace d = true) : chunk0 (c :: d :: t) = [] := by
  simp [chunk0, hc, hd]

theorem chunk0_ws_nws {c d : Char} (t : Str) (hc : isPySpace c = true)
    (hd : isPySpace d = false) : chunk0 (c :: d :: t) = c :: d :: chunk0 t := by
  simp [chunk0, hc, hd]

theorem chunk0_nws {c : Char} (t : Str) (hc : isPySpace c = false) :
    chunk0 (c :: t) = c :: chunk0 t := by
  cases t <;> simp [chunk0, hc]

theorem split2WsGo_head (s cur : Str) :
    ∃ rest, split2WsGo false cur s = (cur.reverse ++ chunk0 s) :: rest := by
  induction s using chunk0.induct generalizing cur with
  | case1 => exact ⟨[], by simp [split2WsGo, chunk0]⟩
  | case2 c hc =>
    exact ⟨[], by simp [split2WsGo, chunk0_ws_one hc, hc]⟩
  | case3 c hc d t' hd =>
    refine ⟨split2WsGo true [] (d :: t'), ?_⟩
    rw [chunk0_ws_ws t' hc hd]
    simp [split2WsGo, hc, hd]
  | case4 c hc d t' hd ih =>
    obtain ⟨rest, hr⟩ := ih (d :: c :: cur)
    refine ⟨rest, ?_⟩
    rw [chunk0_ws_nws t' hc (by simpa using hd)]
    rw [show split2WsGo false cur (c :: d :: t') = split2WsGo false (d :: c :: cur) t' by
      simp [split2WsGo, hc, hd]]
    rw [hr]
    simp [List.append_assoc]

  | case5 c t hc ih =>
    obtain ⟨rest, hr⟩ := ih (c :: cur)
    refine ⟨rest, ?_⟩
    rw [chunk0_nws t (by simpa using hc)]
    rw [show split2WsGo false cur (c :: t) = split2WsGo false (c :: cur) t by
      cases t <;> simp [split2WsGo, hc]]
    rw [hr]
    simp [List.append_assoc]

/-- When the first chunk contains no whitespace it is exactly the leading
non-whitespace run. -/
theorem chunk0_nonspace (s : Str)
    (h : ∀ c ∈ chunk0 s, isPySpace c = false) :
    chunk0 s = s.takeWhile (fun c => !isPySpace c) := by
  induction s using chunk0.induct with
  | case1 => rfl
  | case2 c hc =>
    exfalso
    have hcf := h c (by rw [chunk0_ws_one hc]; simp)
    rw [hcf] at hc; exact Bool.false_ne_true hc
  | case3 c hc d t' hd =>
    rw [chunk0_ws_ws t' hc hd, takeWhile_cons_neg _ (by simp [hc])]
  | case4 c hc d t' hd ih =>
    exfalso
    rw [chunk0_ws_nws t' hc (by simpa using hd)] at h
    have hcf := h c (by simp)
    rw [hcf] at hc; exact Bool.false_ne_true hc
  | case5 c t hc ih =>
    have hcf : isPySpace c = false := by simpa using hc
    rw [chunk0_nws t hcf] at h ⊢
    rw [takeWhile_cons_pos _ (by simp [hcf])]
    have hh : ∀ x ∈ chunk0 t, isPySpace x = false := fun x hx => h x (by simp [hx])
    rw [ih hh]

theorem splitWsGo_head (s cur : Str) :
    ∃ rest, splitWsGo false cur s =
      (cur.reverse ++ s.takeWhile (fun c => !isPySpace c)) :: rest := by
  induction s generalizing cur with
  | nil => exact ⟨[], by simp [splitWsGo]⟩
  | cons c t ih =>
    cases hc : isPySpace c
    · obtain ⟨rest, hr⟩ := ih (c :: cur)
      refine ⟨rest, ?_⟩
      rw [show splitWsGo false cur (c :: t) = splitWsGo false (c :: cur) t by
        simp [splitWsGo, hc]]
      rw [hr, takeWhile_cons_pos _ (by simp [hc])]
      simp
    · refine ⟨splitWsGo true [] t, ?_⟩
      rw [takeWhile_cons_neg _ (by simp [hc])]
      simp [splitWsGo, hc]

/-- `^\d{9,10}[A-Z]?$` strings contain no whitespace. -/
theorem policyShape_nonspace {s : Str} (h : isPolicyShape s = true) :
    ∀ c ∈ s, isPySpace c = false := by
  intro c hc
  have hsplit := List.takeWhile_append_dropWhile (p := isDigitC) (l := s)
  rw [← hsplit] at hc
  rcases List.mem_append.1 hc with hx | hx
  · exact isPySpace_false_of_digit (List.mem_takeWhile_imp hx)
  · unfold isPolicyShape at h
    rcases hdw : s.dropWhile isDigitC with _ | ⟨u, us⟩
    · rw [hdw] at hx; simp at hx
    · rw [hdw] at hx h
      cases us with
      | nil =>
        rcases List.mem_singleton.1 hx with rfl
        simp only [Bool.and_eq_true] at h
        exact isPySpace_false_of_upper h.2
      | cons v vs => simp at h

/-- Strategy 2 (column split) only returns a record whose policy is the
first whitespace-delimited token of the line. -/
theorem columns_policy {line : Str} {r : UwPre}
    (h : parse_policy_line_by_columns line = some r) :
    r.policy_no = firstTok line := by
  unfold parse_policy_line_by_columns at h
  obtain ⟨rest, hsp⟩ := split2WsGo_head (pyStrip line) []
  rw [show pySplit2Ws (pyStrip line) = split2WsGo false [] (pyStrip line) from rfl,
    hsp] at h
  simp only [List.reverse_nil, List.nil_append] at hsp h
  rcases rest with _ | ⟨n1, rest1⟩
  · simp at h
  rcases rest1 with _ | ⟨n2, rest2⟩
  · simp at h
  rcases rest2 with _ | ⟨n3, rest3⟩
  · simp at h
  rcases rest3 with _ | ⟨n4, rest4⟩
  · simp at h
  rcases rest4 with _ | ⟨n5, rest5⟩
  · simp at h
  simp only at h
  cases hg : (isPolicyShape (chunk0 (pyStrip line)) && isPlanShape n2 &&
      isPremiumShape n3 && isAgentIdShape n4) with
  | false => rw [hg] at h; simp at h
  | true =>
    rw [hg] at h
    simp only [if_true, Option.some_inj] at h
    simp only [Bool.and_eq_true] at hg
    have hpol : isPolicyShape (chunk0 (pyStrip line)) = true := hg.1.1.1
    have hck := chunk0_nonspace (pyStrip line) (policyShape_nonspace hpol)
    rw [← h]
    show chunk0 (pyStrip line) = firstTok line
    rw [hck, firstTok_pyStrip]

/-- Strategy 3 (token split) only returns a record whose policy is the
first whitespace-delimited token of the line. -/
theorem tokens_policy {line : Str} {r : UwPre}
    (h : parse_policy_line_by_tokens line = some r) :
    r.policy_no = firstTok line := by
  unfold parse_policy_line_by_tokens at h
  obtain ⟨rest, hsp⟩ := splitWsGo_head (pyStrip line) []
  rw [show pySplitWs (pyStrip line) = splitWsGo false [] (pyStrip line) from rfl,
    hsp] at h
  simp only [List.reverse_nil, List.nil_append] at hsp h
  set tk := (pyStrip line).takeWhile (fun c => !isPySpace c) with htk
  by_cases hlen : (tk :: rest).length < 6
  · rw [if_pos hlen] at h; simp at h
  rw [if_neg hlen] at h
  cases hps : isPolicyShape tk with
  | false => rw [hps] at h; simp at h
  | true =>
    rw [hps] at h
    simp only [Bool.not_true, Bool.false_eq_true, if_false] at h
    rcases hmx : maxAgentIdx (tk :: rest) with _ | idx
    · rw [hmx] at h; simp at h
    rw [hmx] at h
    simp only at h
    have hpol : r.policy_no = tk := by
      by_cases h1 : idx < 1
      · rw [if_pos h1] at h; simp at h
      rw [if_neg h1] at h
      cases hpr : isPremiumShape ((tk :: rest).getD (idx - 1) []) with
      | false => rw [hpr] at h; simp at h
      | true =>
        rw [hpr] at h
        simp only [Bool.not_true, Bool.false_eq_true, if_false] at h
        by_cases h2 : idx < 2
        · rw [if_pos h2] at h; simp at h
        rw [if_neg h2] at h
        cases hpl : isPlanShape ((tk :: rest).getD (idx - 2) []) with
        | false => rw [hpl] at h; simp at h
        | true =>
          rw [hpl] at h
          simp only [Bool.not_true, Bool.false_eq_true, if_false] at h
          by_cases h3 : (((tk :: rest).drop 1).take (idx - 2 - 1)).isEmpty
          · rw [if_pos h3] at h; simp at h
          rw [if_neg h3] at h
          by_cases h4 : ((tk :: rest).drop (idx + 1)).isEmpty
          · rw [if_pos h4] at h; simp at h
          rw [if_neg h4] at h
          simp only [Option.some_inj] at h
          rw [← h]
    rw [hpol, htk, firstTok_pyStrip]

theorem POLICY_RE_policy {line : Str} {g : PolicyG}
    (h : POLICY_RE_match line = some g) :
    g.policy = firstTok line := by
  unfold POLICY_RE_match at h
  unfold firstTok
  rcases orElse_cases h with h1 | ⟨_, h⟩
  · exact tryForm_policy h1
  rcases orElse_cases h with h2 | ⟨_, h⟩
  · exact tryForm_policy h2
  rcases orElse_cases h with h3 | ⟨_, h4⟩
  · exact tryForm_policy h3
  · exact tryForm_policy h4

/-! ## Claim C1 -/

/-- C1 (amended): for every input line matched by the strict
policy-activity pattern, the column-split and the token-split strategy,
when they succeed on the same line, produce a record with the same
policy_no as the strict result.  (The agent_id half of the original claim
fails: see `C1_agent_id_counterexample`.) -/
theorem C1_policy_no_agreement (line : Str) (g : PolicyG)
    (hg : POLICY_RE_match line = some g) :
    (∀ r, parse_policy_line_by_columns line = some r → r.policy_no = g.policy) ∧
    (∀ r, parse_policy_line_by_tokens line = some r → r.policy_no = g.policy) := by
  have hp := POLICY_RE_policy hg
  exact ⟨fun r hr => by rw [columns_policy hr, hp],
         fun r hr => by rw [tokens_policy hr, hp]⟩

/-- C1 counterexample: on `c1Line` the strict pattern matches with agent_id
"123456" while the token-split strategy also succeeds but returns agent_id
"654321" (it keys on the rightmost 6-7-digit token), refuting the claimed
agent_id agreement; the policy numbers still agree. -/
theorem C1_agent_id_counterexample :
    (POLICY_RE_match c1Line).map (fun g => g.agent_id) = some ( "123456".data ) ∧
    (parse_policy_line_by_tokens c1Line).map (fun r => r.agent_id) =
      some ( "654321".data ) := by
  exact ⟨by decide, by decide⟩

/-- C1 witness: the amended theorem applied to the specification's scenario
line, on which both the strict pattern and the token strategy succeed. -/
theorem C1_witness :
    POLICY_RE_match c1WitnessLine = some c1WitnessG ∧
    parse_policy_line_by_tokens c1WitnessLine = some c1WitnessR ∧
    c1WitnessR.policy_no = c1WitnessG.policy :=
  ⟨by decide, by decide,
   (C1_policy_no_agreement c1WitnessLine c1WitnessG (by decide)).2 c1WitnessR
     (by decide)⟩

/-! ## Claim C7 -/

/-- The routing invariant of one parse_return_items loop iteration. -/
theorem retStep_inv (st : RetState) (ln : Str)
    (h1 : st.sectionName = none ∨ st.sectionName = some ( "RETURNED ITEMS".data ) ∨
      st.sectionName = some ( "RETURNED PRE-NOTES".data ))
    (h2 : ∀ it ∈ st.pre_notes, it.sectionName = some ( "RETURNED PRE-NOTES".data ))
    (h3 : ∀ it ∈ st.items, it.sectionName = none ∨
      it.sectionName = some ( "RETURNED ITEMS".data )) :
    ((retStep st ln).sectionName = none ∨
      (retStep st ln).sectionName = some ( "RETURNED ITEMS".data ) ∨
      (retStep st ln).sectionName = some ( "RETURNED PRE-NOTES".data )) ∧
    (∀ it ∈ (retStep st ln).pre_notes,
      it.sectionName = some ( "RETURNED PRE-NOTES".data )) ∧
    (∀ it ∈ (retStep st ln).items, it.sectionName = none ∨
      it.sectionName = some ( "RETURNED ITEMS".data )) := by
  unfold retStep
  cases hr : regionMatch ln with
  | some rd => exact ⟨h1, h2, h3⟩
  | none =>
    cases hag : agencyMatch ln with
    | some ad => exact ⟨h1, h2, h3⟩
    | none =>
      simp only
      set u := pyStrip (pyUpper ln) with hu
      set sec : Option Str :=
        (if containsSub u ( "RETURNED ITEMS".data ) = true then
          some ( "RETURNED ITEMS".data )
        else if (containsSub u ( "RETURNED PRE-NOTES".data ) ||
            containsSub u ( "RETURNED PRE NOTES".data )) = true then
          some ( "RETURNED PRE-NOTES".data )
        else st.sectionName) with hsec
      have hsec3 : sec = none ∨ sec = some ( "RETURNED ITEMS".data ) ∨
          sec = some ( "RETURNED PRE-NOTES".data ) := by
        rw [hsec]
        by_cases hA : containsSub u ( "RETURNED ITEMS".data ) = true
        · simp [hA]
        · by_cases hB : (containsSub u ( "RETURNED PRE-NOTES".data ) ||
              containsSub u ( "RETURNED PRE NOTES".data )) = true
          · simp [hA, hB]
          · simpa [hA, hB] using h1
      cases hpc : parseItemCore ln with
      | none => exact ⟨hsec3, h2, h3⟩
      | some c =>
        dsimp only
        split
        next hp =>
          refine ⟨hsec3, ?_, h3⟩
          intro it hit
          rcases List.mem_append.1 hit with hold | hnew
          · exact h2 it hold
          · rcases List.mem_singleton.1 hnew with rfl
            exact hp
        next hp =>
          refine ⟨hsec3, h2, ?_⟩
          intro it hit
          rcases List.mem_append.1 hit with hold | hnew
          · exact h3 it hold
          · rcases List.mem_singleton.1 hnew with rfl
            show sec = none ∨ sec = some ( "RETURNED ITEMS".data )
            rcases hsec3 with h | h | h
            · exact Or.inl h
            · exact Or.inr h
            · exact absurd h hp

/-- C7 (amended): every record routed to returned_pre_notes carries the
section value "RETURNED PRE-NOTES", and every record routed to
returned_items carries "RETURNED ITEMS" or no section at all (None, when
an item line precedes the first section header; the original claim's
two-value invariant fails, see `C7_section_counterexample`). -/
theorem C7_section_routing (text : Str) :
    (∀ it ∈ (parse_return_items text).returned_pre_notes,
      it.sectionName = some ( "RETURNED PRE-NOTES".data )) ∧
    (∀ it ∈ (parse_return_items text).returned_items,
      it.sectionName = none ∨ it.sectionName = some ( "RETURNED ITEMS".data )) := by
  have main : ∀ (lns : List Str) (st : RetState),
      (st.sectionName = none ∨ st.sectionName = some ( "RETURNED ITEMS".data ) ∨
        st.sectionName = some ( "RETURNED PRE-NOTES".data )) →
      (∀ it ∈ st.pre_notes, it.sectionName = some ( "RETURNED PRE-NOTES".data )) →
      (∀ it ∈ st.items, it.sectionName = none ∨
        it.sectionName = some ( "RETURNED ITEMS".data )) →
      (∀ it ∈ (lns.foldl retStep st).pre_notes,
        it.sectionName = some ( "RETURNED PRE-NOTES".data )) ∧
      (∀ it ∈ (lns.foldl retStep st).items, it.sectionName = none ∨
        it.sectionName = some ( "RETURNED ITEMS".data )) := by
    intro lns
    induction lns with
    | nil => intro st p1 p2 p3; exact ⟨p2, p3⟩
    | cons l ls ih =>
      intro st p1 p2 p3
      obtain ⟨q1, q2, q3⟩ := retStep_inv st l p1 p2 p3
      exact ih (retStep st l) q1 q2 q3
  have h0 := main (pySplitlines text) retInit (Or.inl rfl)
    (by intro it hit; simp [retInit] at hit)
    (by intro it hit; simp [retInit] at hit)
  exact ⟨h0.1, h0.2⟩

/-- C7 counterexample: an item line with no preceding section header is
appended to returned_items with section = None, which is neither
"RETURNED ITEMS" nor "RETURNED PRE-NOTES". -/
theorem C7_section_counterexample :
    ((parse_return_items c7Line).returned_items.map (fun it => it.sectionName)) =
      [none] := by decide

/-- C7 witness: the routing theorem applied to a concrete pre-notes text. -/
theorem C7_witness :
    c7WitnessItem ∈ (parse_return_items c7WitnessText).returned_pre_notes ∧
    c7WitnessItem.sectionName = some ( "RETURNED PRE-NOTES".data ) :=
  ⟨by decide,
   (C7_section_routing c7WitnessText).1 c7WitnessItem (by decide)⟩

/-! ## Claims C9 and C10 -/

theorem takeExactDigits_succ_head {n : Nat} {s ds r : Str}
    (h : takeExactDigits (n + 1) s = some (ds, r)) :
    ∃ c t, s = c :: t ∧ isDigitC c = true := by
  cases s with
  | nil => simp [takeExactDigits] at h
  | cons c t =>
    refine ⟨c, t, rfl, ?_⟩
    cases hc : isDigitC c
    · simp [takeExactDigits, hc] at h
    · rfl

/-- An item-anchor line can match neither page-header pattern: its first
non-blank character is a digit, not the letter R or A. -/
theorem anchor_headers_disjoint {ln : Str} {x : Str × Str × Str}
    (h : anchorMatch ln = some x) :
    regionMatch ln = none ∧ agencyMatch ln = none := by
  cases htd : takeExactDigits 3 (ln.dropWhile isPySpace) with
  | none => simp [anchorMatch, htd] at h
  | some p =>
    obtain ⟨c, t, hs, hc⟩ := takeExactDigits_succ_head htd
    have hcR : ('R' = c) = False := by
      simp only [eq_iff_iff, iff_false]
      rintro rfl; exact absurd hc (by decide)
    have hcA : ('A' = c) = False := by
      simp only [eq_iff_iff, iff_false]
      rintro rfl; exact absurd hc (by decide)
    constructor
    · unfold regionMatch
      rw [show ( "REGION:".data ) = 'R' :: ( "EGION:".data ) from rfl, hs]
      simp [dropLit, hcR]
    · unfold agencyMatch
      rw [show ( "AGENCY:".data ) = 'A' :: ( "GENCY:".data ) from rfl, hs]
      simp [dropLit, hcA]

/-- C9: the two report parsers are total functions into plain record
lists (no error channel exists in their types), and a line that matches no
grammar contributes nothing: the underwriting step leaves its state
unchanged, and the returns step leaves both output lists unchanged. -/
theorem C9_tolerant_drop :
    (∀ (st : UwState) (ln : Str), detect_status (rstrip ln) = none →
      POLICY_RE_match (rstrip ln) = none →
      parse_policy_line_by_columns (rstrip ln) = none →
      parse_policy_line_by_tokens (rstrip ln) = none →
      UW_RE_match (rstrip ln) = none →
      parse_uw_line_by_columns (rstrip ln) = none →
      uwStep st ln = st) ∧
    (∀ (st : RetState) (ln : Str), parseItemCore ln = none →
      (retStep st ln).items = st.items ∧
      (retStep st ln).pre_notes = st.pre_notes) := by
  constructor
  · intro st ln h1 h2 h3 h4 h5 h6
    unfold uwStep
    by_cases he : (pyStrip (rstrip ln)).isEmpty
    · simp [he]
    · simp [he, h1, h2, h3, h4, h5, h6]
  · intro st ln h
    unfold retStep
    cases hr : regionMatch ln with
    | some rd => exact ⟨rfl, rfl⟩
    | none =>
      cases hag : agencyMatch ln with
      | some ad => exact ⟨rfl, rfl⟩
      | none => simp [h]

/-- C9 witness: a noise line is dropped by both parsers without touching
the outputs. -/
theorem C9_witness :
    uwStep c9UwState c9Line = c9UwState ∧
    (retStep retInit c9Line).items = retInit.items ∧
    (retStep retInit c9Line).pre_notes = retInit.pre_notes :=
  ⟨C9_tolerant_drop.1 c9UwState c9Line (by decide) (by decide) (by decide)
     (by decide) (by decide) (by decide),
   C9_tolerant_drop.2 retInit c9Line (by decide)⟩

/-- C10: when the anchor matches, the remainder has at least 8 tokens and
the first bill-day/date boundary pair sits so late that fewer than six
tokens follow the bill-day token, the line is still emitted as one record
(one of the two output lists grows), with the out-of-range trailing
fields absent. -/
theorem C10_late_boundary (ln : Str) (cc pol rest0 : Str) (idx : Nat)
    (st : RetState)
    (ha : anchorMatch ln = some (cc, pol, rest0))
    (hlen : 8 ≤ (pySplitWs (pyStrip rest0)).length)
    (hb : findBoundary (pySplitWs (pyStrip rest0)) = some idx)
    (hshort : (pySplitWs (pyStrip rest0)).length < idx + 7) :
    (∃ core, parseItemCore ln = some core ∧
      core.agent_name = none ∧ core.reason = none ∧
      ((pySplitWs (pyStrip rest0)).length ≤ idx + 2 → core.bill_no = none) ∧
      ((pySplitWs (pyStrip rest0)).length ≤ idx + 3 → core.amount = none) ∧
      ((pySplitWs (pyStrip rest0)).length ≤ idx + 4 → core.agency_code_line = none) ∧
      ((pySplitWs (pyStrip rest0)).length ≤ idx + 5 → core.agent_num = none)) ∧
    (retStep st ln).items.length + (retStep st ln).pre_notes.length =
      st.items.length + st.pre_notes.length + 1 := by
  have hdrop : (pySplitWs (pyStrip rest0)).drop (idx + 6) = [] :=
    List.drop_eq_nil_of_le (by omega)
  have hcore : ∃ core, parseItemCore ln = some core ∧
      core.agent_name = none ∧ core.reason = none ∧
      ((pySplitWs (pyStrip rest0)).length ≤ idx + 2 → core.bill_no = none) ∧
      ((pySplitWs (pyStrip rest0)).length ≤ idx + 3 → core.amount = none) ∧
      ((pySplitWs (pyStrip rest0)).length ≤ idx + 4 → core.agency_code_line = none) ∧
      ((pySplitWs (pyStrip rest0)).length ≤ idx + 5 → core.agent_num = none) := by
    unfold parseItemCore
    rw [ha]
    dsimp only
    rw [if_neg (by omega), hb]
    dsimp only
    refine ⟨_, rfl, ?_, ?_, ?_, ?_, ?_, ?_⟩
    · dsimp only
      rw [hdrop]
      simp [findReasonIdx]
    · dsimp only
      rw [hdrop]
      simp [findReasonIdx]
    · intro hle
      dsimp only
      rw [List.get?_eq_none.2 (by omega)]
    · intro hle
      dsimp only
      rw [List.get?_eq_none.2 (by omega)]
    · intro hle
      dsimp only
      exact List.get?_eq_none.2 (by omega)
    · intro hle
      dsimp only
      exact List.get?_eq_none.2 (by omega)
  obtain ⟨core, hpc, hrest⟩ := hcore
  refine ⟨⟨core, hpc, hrest⟩, ?_⟩
  obtain ⟨hreg, hagc⟩ := anchor_headers_disjoint ha
  unfold retStep
  rw [hreg, hagc, hpc]
  dsimp only
  split <;> (try split) <;> (try split) <;> (try simp) <;> omega

/-- C10 witness: the theorem applied to a concrete 8-token line with the
boundary at index 6. -/
theorem C10_witness :
    (∃ core, parseItemCore c10Line = some core ∧
      core.agent_name = none ∧ core.reason = none ∧
      ((pySplitWs (pyStrip c10Rest)).length ≤ 6 + 2 → core.bill_no = none) ∧
      ((pySplitWs (pyStrip c10Rest)).length ≤ 6 + 3 → core.amount = none) ∧
      ((pySplitWs (pyStrip c10Rest)).length ≤ 6 + 4 → core.agency_code_line = none) ∧
      ((pySplitWs (pyStrip c10Rest)).length ≤ 6 + 5 → core.agent_num = none)) ∧
    (retStep retInit c10Line).items.length + (retStep retInit c10Line).pre_notes.length =
      retInit.items.length + retInit.pre_notes.length + 1 :=
  C10_late_boundary c10Line ( "110".data ) ( "0123456789".data ) c10Rest 6 retInit
    (by decide) (by decide) (by decide) (by decide)

/-! ## Claim C8: record-shape invariant of parse_report -/

theorem dropWhile_append_all {p : Char → Bool} (l1 l2 : Str)
    (h : ∀ c ∈ l1, p c = true) :
    (l1 ++ l2).dropWhile p = l2.dropWhile p := by
  induction l1 with
  | nil => simp
  | cons c t ih =>
    rw [List.cons_append, List.dropWhile_cons]
    simp [h c (by simp), ih (fun x hx => h x (by simp [hx]))]

theorem digit_ne_plus {c : Char} (h : isDigitC c = true) : ¬(c = '+') := by
  intro hc; subst hc; exact absurd h (by decide)

theorem digit_ne_minus {c : Char} (h : isDigitC c = true) : ¬(c = '-') := by
  intro hc; subst hc; exact absurd h (by decide)

theorem digit_ne_comma {c : Char} (h : isDigitC c = true) : ¬(c = ',') := by
  intro hc; subst hc; exact absurd h (by decide)

/-- The premium segment of the strict pattern always has the premium
shape checked by the column strategy. -/
theorem premiumSeg_shape {s q r : Str} (h : premiumSeg s = some (q, r)) :
    isPremiumShape q = true := by
  by_cases hne : (s.takeWhile isPremChar).isEmpty = true
  · simp [premiumSeg, hne] at h
  · cases hdw : s.dropWhile isPremChar with
    | nil => simp [premiumSeg, hne, hdw] at h
    | cons c0 t2 =>
      cases t2 with
      | nil => simp [premiumSeg, hne, hdw] at h
      | cons a t3 =>
        cases t3 with
        | nil => simp [premiumSeg, hne, hdw] at h
        | cons b rest =>
          by_cases hg : (c0 = '.' && isDigitC a && isDigitC b) = true
          · simp only [premiumSeg, hdw] at h
            rw [if_neg hne, hg, if_pos rfl] at h
            simp only [Option.some_inj, Prod.mk.injEq] at h
            obtain ⟨hq, hr⟩ := h
            subst hq
            have hg' := hg
            simp only [Bool.and_eq_true, decide_eq_true_eq] at hg'
            obtain ⟨⟨hc0, ha⟩, hb⟩ := hg'
            subst hc0
            have hmem : ∀ c ∈ s.takeWhile isPremChar, isPremChar c = true :=
              fun c hc => List.mem_takeWhile_imp hc
            have hne' : (s.takeWhile isPremChar).isEmpty = false := by
              simpa using hne
            have hdot : isPremChar '.' = false := by decide
            unfold isPremiumShape
            rw [takeWhile_append_all _ _ hmem, dropWhile_append_all _ _ hmem,
              takeWhile_cons_neg [a, b] hdot, List.dropWhile_cons]
            simp [hdot, hne', ha, hb]
          · simp [premiumSeg, hne, hdw, hg] at h

theorem contAfterName_premium {nm s : Str} {b : PolicyBody}
    (h : contAfterName nm s = some b) : isPremiumShape b.premium = true := by
  cases h1 : wsPlus s with
  | none => simp [contAfterName, h1] at h
  | some s1 =>
    cases h2 : classRun isPlanChar s1 with
    | none => simp [contAfterName, h1, h2] at h
    | some pls2 =>
      obtain ⟨pl, s2⟩ := pls2
      cases h3 : wsPlus s2 with
      | none => simp [contAfterName, h1, h2, h3] at h
      | some s3 =>
        cases h4 : premiumSeg s3 with
        | none => simp [contAfterName, h1, h2, h3, h4] at h
        | some qs4 =>
          obtain ⟨q, s4⟩ := qs4
          cases h5 : wsPlus s4 with
          | none => simp [contAfterName, h1, h2, h3, h4, h5] at h
          | some s5 =>
            cases h6 : agentIdSeg s5 with
            | none => simp [contAfterName, h1, h2, h3, h4, h5, h6] at h
            | some as6 =>
              obtain ⟨aid, s6⟩ := as6
              cases h7 : trailingSearch s6 with
              | none => simp [contAfterName, h1, h2, h3, h4, h5, h6, h7] at h
              | some ag =>
                simp only [contAfterName, h1, h2, h3, h4, h5, h6, h7,
                  Option.some_inj] at h
                subst h
                exact premiumSeg_shape h4

theorem nameLoop_premium {acc s : Str} {b : PolicyBody}
    (h : nameLoop acc s = some b) : isPremiumShape b.premium = true := by
  induction s generalizing acc with
  | nil => simp [nameLoop] at h
  | cons c rest ih =>
    by_cases hc : isNameChar c = true
    · cases hca : contAfterName (acc ++ [c]) rest with
      | none =>
        simp only [nameLoop, hc, if_true, hca] at h
        exact ih h
      | some b' =>
        simp only [nameLoop, hc, if_true, hca, Option.some_inj] at h
        subst h
        exact contAfterName_premium hca
    · simp [nameLoop, hc] at h

theorem nameWsGo_premium {w r : Str} {b : PolicyBody}
    (h : nameWsGo w r = some b) : isPremiumShape b.premium = true := by
  induction w generalizing r with
  | nil => simp [nameWsGo] at h
  | cons c w2 ih =>
    cases hnl : nameLoop [] r with
    | none =>
      simp only [nameWsGo, hnl] at h
      exact ih h
    | some b' =>
      simp only [nameWsGo, hnl, Option.some_inj] at h
      subst h
      exact nameLoop_premium hnl

theorem tryForm_premium {n : Nat} {letter : Bool} {s : Str} {g : PolicyG}
    (h : tryForm n letter s = some g) : isPremiumShape g.premium = true := by
  cases hpf : policyForm n letter s with
  | none => simp [tryForm, hpf] at h
  | some pr =>
    obtain ⟨pol, rest⟩ := pr
    cases hb : matchAfterPolicy rest with
    | none => simp [tryForm, hpf, hb] at h
    | some b =>
      simp only [tryForm, hpf, hb, Option.some_inj] at h
      subst h
      unfold matchAfterPolicy at hb
      exact nameWsGo_premium hb

/-- Every strict-pattern match carries a shape-valid premium group. -/
theorem POLICY_RE_premium {line : Str} {g : PolicyG}
    (h : POLICY_RE_match line = some g) : isPremiumShape g.premium = true := by
  unfold POLICY_RE_match at h
  rcases orElse_cases h with h1 | ⟨_, h⟩
  · exact tryForm_premium h1
  rcases orElse_cases h with h2 | ⟨_, h⟩
  · exact tryForm_premium h2
  rcases orElse_cases h with h3 | ⟨_, h4⟩
  · exact tryForm_premium h3
  · exact tryForm_premium h4

/-- Comma-stripping a shape-valid premium leaves digits, a dot, and two
digits. -/
theorem stripCommas_shape {s : Str} (hsh : isPremiumShape s = true) :
    ∃ dg a b, stripCommas s = dg ++ '.' :: [a, b] ∧
      (∀ c ∈ dg, isDigitC c = true) ∧ isDigitC a = true ∧ isDigitC b = true := by
  unfold isPremiumShape at hsh
  rw [Bool.and_eq_true] at hsh
  obtain ⟨hne, hm⟩ := hsh
  cases hdw : s.dropWhile isPremChar with
  | nil => rw [hdw] at hm; simp at hm
  | cons c0 t2 =>
    cases t2 with
    | nil => rw [hdw] at hm; simp at hm
    | cons a t3 =>
      cases t3 with
      | nil => rw [hdw] at hm; simp at hm
      | cons b t4 =>
        cases t4 with
        | cons d t5 => rw [hdw] at hm; simp at hm
        | nil =>
          rw [hdw] at hm
          simp only [Bool.and_eq_true, decide_eq_true_eq] at hm
          obtain ⟨⟨hc0, ha⟩, hb⟩ := hm
          subst hc0
          have hs := (List.takeWhile_append_dropWhile (p := isPremChar) (l := s)).symm
          rw [hdw] at hs
          have hmem : ∀ c ∈ s.takeWhile isPremChar, isPremChar c = true :=
            fun c hc => List.mem_takeWhile_imp hc
          refine ⟨(s.takeWhile isPremChar).filter (fun c => c ≠ ','), a, b, ?_, ?_, ha, hb⟩
          · unfold stripCommas
            conv_lhs => rw [hs]
            rw [List.filter_append]
            simp [List.filter_cons, digit_ne_comma ha, digit_ne_comma hb]
          · intro c hc
            rw [List.mem_filter] at hc
            obtain ⟨hcm, hcp⟩ := hc
            have hprem := hmem c hcm
            rw [isPremChar, Bool.or_eq_true] at hprem
            rcases hprem with hd | hcm'
            · exact hd
            · exact absurd (by simpa using hcm') (by simpa using hcp)

theorem pyDecimalCore_digits_dot {dg : Str} {a b : Char}
    (hdg : ∀ c ∈ dg, isDigitC c = true)
    (ha : isDigitC a = true) (hb : isDigitC b = true) :
    (pyDecimalCore? (dg ++ '.' :: [a, b])).isSome = true := by
  have hdot : isDigitC '.' = false := by decide
  simp only [pyDecimalCore?]
  rw [takeWhile_append_all _ _ hdg, dropWhile_append_all _ _ hdg,
    takeWhile_cons_neg [a, b] hdot, List.dropWhile_cons]
  simp [hdot, List.takeWhile_cons, List.dropWhile_cons, ha, hb]

/-- The premium-conversion helper never fails on a shape-valid premium. -/
theorem to_float_premium_isSome {s : Str} (h : isPremiumShape s = true) :
    (to_float_premium s).isSome = true := by
  obtain ⟨dg, a, b, hsc, hdg, ha, hb⟩ := stripCommas_shape h
  have hq : (pyDecimalQ? (dg ++ '.' :: [a, b])).isSome = true := by
    cases dg with
    | nil =>
      simp only [List.nil_append, pyDecimalQ?]
      rw [if_neg (by decide : ¬('.' : Char) = '+'),
        if_neg (by decide : ¬('.' : Char) = '-')]
      exact @pyDecimalCore_digits_dot [] a b (by simp) ha hb
    | cons d dt =>
      have hd := hdg d (by simp)
      rw [List.cons_append]
      simp only [pyDecimalQ?]
      rw [if_neg (digit_ne_plus hd), if_neg (digit_ne_minus hd)]
      exact @pyDecimalCore_digits_dot (d :: dt) a b hdg ha hb
  unfold to_float_premium pyFloat?
  rw [hsc]
  cases hqq : pyDecimalQ? (dg ++ '.' :: [a, b]) with
  | none => rw [hqq] at hq; exact absurd hq (by simp)
  | some v => rfl

/-- Strategy-2 records: plan and premium together, no requirement. -/
theorem columns_shape {line : Str} {r : UwPre}
    (h : parse_policy_line_by_columns line = some r) :
    r.plan.isSome = r.annual_premium.isSome ∧
      r.requirement_desc.isSome = !r.plan.isSome := by
  unfold parse_policy_line_by_columns at h
  cases hsp : pySplit2Ws (pyStrip line) with
  | nil => rw [hsp] at h; simp at h
  | cons p0 t0 =>
    rw [hsp] at h
    rcases t0 with _ | ⟨p1, t1⟩
    · simp at h
    rcases t1 with _ | ⟨p2, t2⟩
    · simp at h
    rcases t2 with _ | ⟨p3, t3⟩
    · simp at h
    rcases t3 with _ | ⟨p4, t4⟩
    · simp at h
    rcases t4 with _ | ⟨p5, ps⟩
    · simp at h
    simp only at h
    cases hg : (isPolicyShape p0 && isPlanShape p2 && isPremiumShape p3 &&
        isAgentIdShape p4) with
    | false => rw [hg] at h; simp at h
    | true =>
      rw [hg] at h
      simp only [if_true, Option.some_inj] at h
      simp only [Bool.and_eq_true] at hg
      subst h
      exact ⟨(to_float_premium_isSome hg.1.2).symm, rfl⟩

/-- Strategy-3 records: plan and premium together, no requirement. -/
theorem tokens_shape {line : Str} {r : UwPre}
    (h : parse_policy_line_by_tokens line = some r) :
    r.plan.isSome = r.annual_premium.isSome ∧
      r.requirement_desc.isSome = !r.plan.isSome := by
  unfold parse_policy_line_by_tokens at h
  obtain ⟨rest, hsp⟩ := splitWsGo_head (pyStrip line) []
  rw [show pySplitWs (pyStrip line) = splitWsGo false [] (pyStrip line) from rfl,
    hsp] at h
  simp only [List.reverse_nil, List.nil_append] at hsp h
  set tk := (pyStrip line).takeWhile (fun c => !isPySpace c) with htk
  by_cases hlen : (tk :: rest).length < 6
  · rw [if_pos hlen] at h; simp at h
  rw [if_neg hlen] at h
  cases hps : isPolicyShape tk with
  | false => rw [hps] at h; simp at h
  | true =>
    rw [hps] at h
    simp only [Bool.not_true, Bool.false_eq_true, if_false] at h
    rcases hmx : maxAgentIdx (tk :: rest) with _ | idx
    · rw [hmx] at h; simp at h
    rw [hmx] at h
    simp only at h
    by_cases h1 : idx < 1
    · rw [if_pos h1] at h; simp at h
    rw [if_neg h1] at h
    cases hpr : isPremiumShape ((tk :: rest).getD (idx - 1) []) with
    | false => rw [hpr] at h; simp at h
    | true =>
      rw [hpr] at h
      simp only [Bool.not_true, Bool.false_eq_true, if_false] at h
      by_cases h2 : idx < 2
      · rw [if_pos h2] at h; simp at h
      rw [if_neg h2] at h
      cases hpl : isPlanShape ((tk :: rest).getD (idx - 2) []) with
      | false => rw [hpl] at h; simp at h
      | true =>
        rw [hpl] at h
        simp only [Bool.not_true, Bool.false_eq_true, if_false] at h
        by_cases h3 : (((tk :: rest).drop 1).take (idx - 2 - 1)).isEmpty
        · rw [if_pos h3] at h; simp at h
        rw [if_neg h3] at h
        by_cases h4 : ((tk :: rest).drop (idx + 1)).isEmpty
        · rw [if_pos h4] at h; simp at h
        rw [if_neg h4] at h
        simp only [Option.some_inj] at h
        subst h
        exact ⟨(to_float_premium_isSome hpr).symm, rfl⟩

/-- Requirement-column records: no plan or premium, a requirement. -/
theorem uwcols_shape {line : Str} {r : UwPre}
    (h : parse_uw_line_by_columns line = some r) :
    r.plan.isSome = r.annual_premium.isSome ∧
      r.requirement_desc.isSome = !r.plan.isSome := by
  unfold parse_uw_line_by_columns at h
  cases hsp : pySplit2Ws (pyStrip line) with
  | nil => rw [hsp] at h; simp at h
  | cons p0 t0 =>
    rw [hsp] at h
    rcases t0 with _ | ⟨p1, t1⟩
    · simp at h
    rcases t1 with _ | ⟨p2, t2⟩
    · simp at h
    rcases t2 with _ | ⟨p3, t3⟩
    · simp at h
    rcases t3 with _ | ⟨p4, t4⟩
    · simp at h
    simp only at h
    cases hg : (isPolicyShape p0 && isAgentIdShape p3) with
    | false => rw [hg] at h; simp at h
    | true =>
      rw [hg] at h
      simp only [if_true, Option.some_inj] at h
      subst h
      exact ⟨rfl, rfl⟩

/-- One parse_report iteration preserves the record-shape invariant. -/
theorem uwStep_shape (st : UwState) (ln : Str)
    (hout : ∀ r ∈ st.out, r.plan.isSome = r.annual_premium.isSome ∧
      r.requirement_desc.isSome = !r.plan.isSome) :
    ∀ r ∈ (uwStep st ln).out, r.plan.isSome = r.annual_premium.isSome ∧
      r.requirement_desc.isSome = !r.plan.isSome := by
  simp only [uwStep]
  by_cases hemp : (pyStrip (rstrip ln)).isEmpty = true
  · rw [if_pos hemp]; exact hout
  rw [if_neg hemp]
  cases hds : detect_status (rstrip ln) with
  | some ns => simpa using hout
  | none =>
    cases hs1 : uwStatusSet1 st.status with
    | true =>
      simp only [hs1, if_true]
      cases hre : POLICY_RE_match (rstrip ln) with
      | some g =>
        simp only [hre]
        intro r hr
        rcases List.mem_append.1 hr with hr2 | hr2
        · exact hout r hr2
        · rcases List.mem_singleton.1 hr2 with rfl
          exact ⟨(to_float_premium_isSome (POLICY_RE_premium hre)).symm, rfl⟩
      | none =>
        simp only [hre]
        cases hpc : parse_policy_line_by_columns (rstrip ln) with
        | some p =>
          simp only [hpc]
          intro r hr
          rcases List.mem_append.1 hr with hr2 | hr2
          · exact hout r hr2
          · rcases List.mem_singleton.1 hr2 with rfl
            exact columns_shape hpc
        | none =>
          simp only [hpc]
          cases hpt : parse_policy_line_by_tokens (rstrip ln) with
          | some p =>
            simp only [hpt]
            intro r hr
            rcases List.mem_append.1 hr with hr2 | hr2
            · exact hout r hr2
            · rcases List.mem_singleton.1 hr2 with rfl
              exact tokens_shape hpt
          | none =>
            simp only [hpt]
            cases hs2 : uwStatusSet2 st.status with
            | false => simp only [hs2, Bool.false_eq_true, if_false]; exact hout
            | true =>
              simp only [hs2, if_true]
              cases huw : UW_RE_match (rstrip ln) with
              | some g =>
                simp only [huw]
                intro r hr
                rcases List.mem_append.1 hr with hr2 | hr2
                · exact hout r hr2
                · rcases List.mem_singleton.1 hr2 with rfl
                  exact ⟨rfl, rfl⟩
              | none =>
                simp only [huw]
                cases huc : parse_uw_line_by_columns (rstrip ln) with
                | some p =>
                  simp only [huc]
                  intro r hr
                  rcases List.mem_append.1 hr with hr2 | hr2
                  · exact hout r hr2
                  · rcases List.mem_singleton.1 hr2 with rfl
                    exact uwcols_shape huc
                | none => simp only [huc]; exact hout
    | false =>
      simp only [hs1, Bool.false_eq_true, if_false]
      cases hs2 : uwStatusSet2 st.status with
      | false => simp only [hs2, Bool.false_eq_true, if_false]; exact hout
      | true =>
        simp only [hs2, if_true]
        cases huw : UW_RE_match (rstrip ln) with
        | some g =>
          simp only [huw]
          intro r hr
          rcases List.mem_append.1 hr with hr2 | hr2
          · exact hout r hr2
          · rcases List.mem_singleton.1 hr2 with rfl
            exact ⟨rfl, rfl⟩
        | none =>
          simp only [huw]
          cases huc : parse_uw_line_by_columns (rstrip ln) with
          | some p =>
            simp only [huc]
            intro r hr
            rcases List.mem_append.1 hr with hr2 | hr2
            · exact hout r hr2
            · rcases List.mem_singleton.1 hr2 with rfl
              exact uwcols_shape huc
          | none => simp only [huc]; exact hout

theorem uwFold_shape (lines : List Str) (st : UwState)
    (hout : ∀ r ∈ st.out, r.plan.isSome = r.annual_premium.isSome ∧
      r.requirement_desc.isSome = !r.plan.isSome) :
    ∀ r ∈ (lines.foldl uwStep st).out,
      r.plan.isSome = r.annual_premium.isSome ∧
        r.requirement_desc.isSome = !r.plan.isSome := by
  induction lines generalizing st with
  | nil => exact hout
  | cons l ls ih => exact ih _ (uwStep_shape st l hout)

/-- C8: every record produced by any of the five underwriting parsing
paths has plan and annual_premium either both set or both absent, and
requirement_desc set exactly when they are absent. -/
theorem C8_record_shapes (text : Str) (r : UwRecord)
    (hr : r ∈ parse_report text) :
    r.plan.isSome = r.annual_premium.isSome ∧
      r.requirement_desc.isSome = !r.plan.isSome := by
  unfold parse_report at hr
  exact uwFold_shape (pySplitlines text) ⟨none, []⟩
    (by intro x hx; simp at hx) r hr

/-- C8 witness: the invariant at the concrete report `c8Text`, whose
single record takes the strict-regex path. -/
theorem C8_witness :
    c8Rec ∈ parse_report c8Text ∧
      (c8Rec.plan.isSome = c8Rec.annual_premium.isSome ∧
        c8Rec.requirement_desc.isSome = !c8Rec.plan.isSome) :=
  ⟨by decide, C8_record_shapes c8Text c8Rec (by decide)⟩

/-! ## Claim C2: the agent-name / reason split of the final token group -/

theorem findReasonIdx_of_split (pre : List Str) (tok : Str) (post : List Str)
    (hpre : ∀ t ∈ pre, isReasonTok t = false) (htok : isReasonTok tok = true) :
    findReasonIdx (pre ++ tok :: post) = some pre.length := by
  induction pre with
  | nil => simp [findReasonIdx, htok]
  | cons p ps ih =>
    have hp := hpre p (by simp)
    simp [findReasonIdx, hp, ih (fun t ht => hpre t (by simp [ht]))]

theorem findReasonIdx_none (l : List Str) (h : ∀ t ∈ l, isReasonTok t = false) :
    findReasonIdx l = none := by
  induction l with
  | nil => rfl
  | cons t ts ih =>
    simp [findReasonIdx, h t (by simp), ih (fun x hx => h x (by simp [hx]))]

/-- C2 (amended): on an item line, writing the final token group (the
tokens after the agent number) as `pre ++ tok :: post` with `tok` the
first reason token, the reason is the tokens from `tok` on (upper-cased,
space-joined) and the agent name is `pre` (title-cased) when `pre` is
nonempty; when the first reason token sits at position 0 the agent name is
NOT absent but all tokens of the group except the last, title-cased (the
original claim fails here); with no reason token the agent name is all
tokens but the last and the reason the last token alone. -/
theorem C2_final_group_split (ln : Str) (cc pol rest0 : Str) (idx : Nat)
    (r2 : List Str)
    (ha : anchorMatch ln = some (cc, pol, rest0))
    (hlen : 8 ≤ (pySplitWs (pyStrip rest0)).length)
    (hb : findBoundary (pySplitWs (pyStrip rest0)) = some idx)
    (hr2 : (pySplitWs (pyStrip rest0)).drop (idx + 6) = r2) :
    ∃ c, parseItemCore ln = some c ∧
      (∀ pre tok post, r2 = pre ++ tok :: post →
        (∀ t ∈ pre, isReasonTok t = false) → isReasonTok tok = true →
        c.reason = some (pyUpper (joinSpace (tok :: post))) ∧
        (0 < pre.length → c.agent_name = some (pyTitle (joinSpace pre))) ∧
        (pre.length = 0 →
          c.agent_name = some (pyTitle (joinSpace r2.dropLast)))) ∧
      ((∀ t ∈ r2, isReasonTok t = false) →
        c.agent_name = (if r2.isEmpty then none
          else some (pyTitle (joinSpace r2.dropLast))) ∧
        c.reason = r2.getLast?.map pyUpper) := by
  subst hr2
  unfold parseItemCore
  rw [ha]
  dsimp only
  rw [if_neg (by omega), hb]
  dsimp only
  refine ⟨_, rfl, ?_, ?_⟩
  · intro pre tok post hsplit hpre htok
    have hfr : findReasonIdx ((pySplitWs (pyStrip rest0)).drop (idx + 6)) =
        some pre.length := by
      rw [hsplit]; exact findReasonIdx_of_split pre tok post hpre htok
    refine ⟨?_, ?_, ?_⟩
    · dsimp only
      rw [hfr]
      dsimp only
      rw [hsplit, List.drop_left]
    · intro hpos
      dsimp only
      rw [hfr]
      dsimp only
      rw [if_pos hpos, hsplit, List.take_left]
    · intro hzero
      dsimp only
      rw [hfr]
      dsimp only
      rw [if_neg (by omega)]
      have hne : ((pySplitWs (pyStrip rest0)).drop (idx + 6)).isEmpty = false := by
        rw [hsplit]; cases pre <;> simp
      rw [if_neg (by simp [hne])]
  · intro hnone
    have hfr : findReasonIdx ((pySplitWs (pyStrip rest0)).drop (idx + 6)) = none :=
      findReasonIdx_none _ hnone
    refine ⟨?_, ?_⟩
    · dsimp only
      rw [hfr]
    · dsimp only
      rw [hfr]
      dsimp only
      cases hgl : ((pySplitWs (pyStrip rest0)).drop (idx + 6)).getLast? <;> rfl

/-- C2 counterexample: on `c2Line` the first reason token of the final
group sits at position 0; the original claim says the agent name is then
empty/absent, but the parser returns "Nsf" (the reason tokens except the
last, title-cased). -/
theorem C2_zero_index_counterexample :
    (parseItemCore c2Line).map (fun c => (c.agent_name, c.reason)) =
      some (some ( "Nsf".data ), some ( "NSF PAYMENT".data )) ∧
    (anchorMatch c2Line).map
      (fun x => findReasonIdx ((pySplitWs (pyStrip x.2.2)).drop (2 + 6))) =
      some (some 0) :=
  ⟨by decide, by decide⟩

/-- C2 witness: the amended theorem at a concrete line whose final group
is "JANE DOE NSF PAYMENT". -/
theorem C2_witness :
    ∃ c, parseItemCore c2WitnessLine = some c ∧
      (∀ pre tok post,
        [( "JANE".data ), ( "DOE".data ), ( "NSF".data ), ( "PAYMENT".data )] =
          pre ++ tok :: post →
        (∀ t ∈ pre, isReasonTok t = false) → isReasonTok tok = true →
        c.reason = some (pyUpper (joinSpace (tok :: post))) ∧
        (0 < pre.length → c.agent_name = some (pyTitle (joinSpace pre))) ∧
        (pre.length = 0 →
          c.agent_name = some (pyTitle (joinSpace
            ([( "JANE".data ), ( "DOE".data ), ( "NSF".data ),
              ( "PAYMENT".data )] : List Str).dropLast)))) ∧
      ((∀ t ∈ ([( "JANE".data ), ( "DOE".data ), ( "NSF".data ),
            ( "PAYMENT".data )] : List Str), isReasonTok t = false) →
        c.agent_name = (if ([( "JANE".data ), ( "DOE".data ), ( "NSF".data ),
            ( "PAYMENT".data )] : List Str).isEmpty then none
          else some (pyTitle (joinSpace ([( "JANE".data ), ( "DOE".data ),
            ( "NSF".data ), ( "PAYMENT".data )] : List Str).dropLast))) ∧
        c.reason = ([( "JANE".data ), ( "DOE".data ), ( "NSF".data ),
          ( "PAYMENT".data )] : List Str).getLast?.map pyUpper) :=
  C2_final_group_split c2WitnessLine ( "110".data ) ( "0107680260".data )
    ( "JOHN SMITH 05 08/22/2025 1234 150.00 AG01 998877 JANE DOE NSF PAYMENT".data )
    2 [( "JANE".data ), ( "DOE".data ), ( "NSF".data ), ( "PAYMENT".data )]
    (by decide) (by decide) (by decide) (by decide)

/-! ## Claim C3: the double-quoting repair trigger -/

/-- C3 (amended): "at least half of the sample" does imply the repair
runs, but the source's exact trigger is the floor test
`total / 2 <= bad`: for a nonempty row set whose first row has at least
one column, the repair runs iff the only-first-column count of the sample
of up to 50 rows reaches half the sample size rounded DOWN — so with an
odd sample size the repair can run although fewer than half the sampled
rows have the shape. -/
theorem C3_repair_threshold :
    (∀ rows, atLeastHalfOnlyFirst rows = true → csvNeedsRepair rows = true) ∧
    (∀ (rows : List Row) (r0 : Row) (rest : List Row), rows = r0 :: rest →
      (r0.map Prod.fst).isEmpty = false →
      (csvNeedsRepair rows = true ↔
        min rows.length 50 / 2 ≤
          ((rows.take (min rows.length 50)).filter
            (onlyFirstFilled (r0.map Prod.fst))).length)) := by
  constructor
  · intro rows h
    cases rows with
    | nil => simp [atLeastHalfOnlyFirst] at h
    | cons r0 rest =>
      simp only [atLeastHalfOnlyFirst, decide_eq_true_eq] at h
      unfold csvNeedsRepair mostly_in_first_column
      cases hk : (r0.map Prod.fst).isEmpty with
      | true =>
        exfalso
        have hk0 : r0.map Prod.fst = [] := List.isEmpty_iff.mp hk
        rw [hk0] at h
        have hbad : ((r0 :: rest).take (min (r0 :: rest).length 50)).filter
            (onlyFirstFilled []) = [] :=
          List.filter_eq_nil_iff.mpr (fun r hr => by simp [onlyFirstFilled])
        rw [hbad] at h
        simp only [List.length_nil] at h
        have hone : 1 ≤ (r0 :: rest).length := by simp
        omega
      | false =>
        simp only [hk, Bool.false_eq_true, if_false, List.isEmpty_cons,
          Bool.false_or]
        exact decide_eq_true (by omega)
  · intro rows r0 rest hrows hk
    subst hrows
    unfold csvNeedsRepair mostly_in_first_column
    simp only [hk, Bool.false_eq_true, if_false, List.isEmpty_cons,
      Bool.false_or, decide_eq_true_eq]

/-- C3 counterexample: a one-row sample with zero only-first-column rows
(fewer than half) is nevertheless repaired, because `0 >= 1 // 2`. -/
theorem C3_halfless_repair_counterexample :
    csvNeedsRepair c3Rows = true ∧ atLeastHalfOnlyFirst c3Rows = false ∧
    ((c3Rows.take 1).filter (onlyFirstFilled (c3Row0.map Prod.fst))).length = 0 :=
  ⟨by decide, by decide, by decide⟩

/-- C3 witness: both halves of the theorem at concrete one-row samples. -/
theorem C3_witness :
    csvNeedsRepair c3wRows = true ∧
    (csvNeedsRepair c3Rows = true ↔
      min c3Rows.length 50 / 2 ≤
        ((c3Rows.take (min c3Rows.length 50)).filter
          (onlyFirstFilled (c3Row0.map Prod.fst))).length) :=
  ⟨C3_repair_threshold.1 c3wRows (by decide),
   C3_repair_threshold.2 c3Rows c3Row0 [] (by decide) (by decide)⟩

/-! ## Claim C4: the numeric comparison tolerance -/

/-- C4 (amended): a numeric field is flagged exactly when the DOUBLE
distance of the two parsed values exceeds the double 0.01 — the rule as
stated over decimal deltas fails: a decimal change of exactly 0.01 is
usually not flagged (0.10 to 0.11) but sometimes is (0.03 to 0.04),
because the binary64 images of the decimals carry rounding error.  A
change of 0.02 (100.00 to 100.02) is flagged, as claimed. -/
theorem C4_numeric_tolerance :
    (∀ (oldR newR : Row) (f : Str) (a b : ℚ),
      NUMERIC_FIELDS.contains f = true →
      parseNum (normVal oldR f) = some a →
      parseNum (normVal newR f) = some b →
      (fieldDiffers oldR newR f = true ↔ d0_01 < qabs (dSub a b))) ∧
    fieldDiffers (c4Row ( "100.00".data )) (c4Row ( "100.02".data ))
      ( "Face".data ) = true := by
  constructor
  · intro oldR newR f a b hf ho hn
    simp only [fieldDiffers, hf, ho, hn]
    simp
  · decide

/-- C4 counterexample: the decimal delta from 0.03 to 0.04 is exactly
0.01 = 1/100, yet the field IS flagged as modified; the same exact
decimal delta from 0.10 to 0.11 is not flagged. -/
theorem C4_exact_hundredth_counterexample :
    ((pyDecimalQ? ( "0.04".data )).bind
      (fun x => (pyDecimalQ? ( "0.03".data )).map (fun y => qsub x y))) =
      some (mkRat 1 100) ∧
    fieldDiffers (c4Row ( "0.03".data )) (c4Row ( "0.04".data ))
      ( "Face".data ) = true ∧
    fieldDiffers (c4Row ( "0.10".data )) (c4Row ( "0.11".data ))
      ( "Face".data ) = false :=
  ⟨by decide, by decide, by decide⟩

/-- C4 witness: the tolerance characterization at the concrete pair
100.00 / 100.02. -/
theorem C4_witness :
    NUMERIC_FIELDS.contains ( "Face".data ) = true ∧
    parseNum (normVal (c4Row ( "100.00".data )) ( "Face".data )) =
      some (mkRat 100 1) ∧
    parseNum (normVal (c4Row ( "100.02".data )) ( "Face".data )) =
      some (mkRat 7038281792649953 70368744177664) ∧
    (fieldDiffers (c4Row ( "100.00".data )) (c4Row ( "100.02".data ))
        ( "Face".data ) = true ↔
      d0_01 < qabs (dSub (mkRat 100 1) (mkRat 7038281792649953 70368744177664))) :=
  ⟨by decide, by decide, by decide,
   C4_numeric_tolerance.1 (c4Row ( "100.00".data )) (c4Row ( "100.02".data ))
     ( "Face".data ) (mkRat 100 1) (mkRat 7038281792649953 70368744177664)
     (by decide) (by decide) (by decide)⟩

/-! ## Claim C6: the diff of identical snapshots -/

theorem qsub_self (a : ℚ) : qsub a a = 0 := by
  unfold qsub
  rw [sub_self, Rat.zero_mkRat]

theorem dSub_self (a : ℚ) : dSub a a = 0 := by
  unfold dSub
  rw [qsub_self]
  simp [roundD]

theorem fieldDiffers_self (r : Row) (f : Str) : fieldDiffers r r f = false := by
  simp only [fieldDiffers]
  cases hnum : NUMERIC_FIELDS.contains f with
  | false => simp [hnum]
  | true =>
    rw [if_pos rfl]
    cases hp : parseNum (normVal r f) with
    | none => simp [hp]
    | some a =>
      simp only [hp]
      rw [dSub_self]
      decide

theorem hasChanges_self (r : Row) : hasChanges r r = false := by
  unfold hasChanges
  simp [fieldDiffers_self]

/-- C6: comparing a snapshot against itself yields empty added and
modified sets; generally, a policy id present in the old snapshot with
zero detected field differences against the new one appears in neither
addedIds nor modifiedIds. -/
theorem C6_diff_invariant :
    (∀ l : List Row,
      (compareRowLists l l).addedIds = [] ∧ (compareRowLists l l).added = [] ∧
      (compareRowLists l l).modifiedIds = [] ∧
      (compareRowLists l l).modified = []) ∧
    (∀ (ln lo : List Row) (pid : Str),
      pid ∈ mapKeys (polMap lo) →
      hasChanges ((mapGet? (polMap lo) pid).getD [])
        ((mapGet? (polMap ln) pid).getD []) = false →
      pid ∉ (compareRowLists ln lo).addedIds ∧
      pid ∉ (compareRowLists ln lo).modifiedIds) := by
  constructor
  · intro l
    have h1 : (mapKeys (polMap l)).filter
        (fun k => !(mapKeys (polMap l)).contains k) = [] :=
      List.filter_eq_nil_iff.mpr (fun k hk => by simp [hk])
    have h2 : ((mapKeys (polMap l)).filter
        (fun k => (mapKeys (polMap l)).contains k)).filter
        (fun pid => hasChanges ((mapGet? (polMap l) pid).getD [])
          ((mapGet? (polMap l) pid).getD [])) = [] :=
      List.filter_eq_nil_iff.mpr (fun k hk => by simp [hasChanges_self])
    simp [compareRowLists, h1, h2, hasChanges_self]
  · intro ln lo pid hmem hzero
    constructor
    · intro hc
      simp only [compareRowLists] at hc
      rw [List.mem_filter] at hc
      have h2 := hc.2
      simp [hmem] at h2
    · intro hc
      simp only [compareRowLists] at hc
      rw [List.mem_filter] at hc
      have h2 := hc.2
      rw [hzero] at h2
      exact absurd h2 (by simp)

/-- C6 witness: the invariant at a concrete one-row snapshot. -/
theorem C6_witness :
    ((compareRowLists c6Rows c6Rows).addedIds = [] ∧
      (compareRowLists c6Rows c6Rows).added = [] ∧
      (compareRowLists c6Rows c6Rows).modifiedIds = [] ∧
      (compareRowLists c6Rows c6Rows).modified = []) ∧
    (( "123".data ) ∉ (compareRowLists c6Rows c6Rows).addedIds ∧
      ( "123".data ) ∉ (compareRowLists c6Rows c6Rows).modifiedIds) :=
  ⟨C6_diff_invariant.1 c6Rows,
   C6_diff_invariant.2 c6Rows c6Rows ( "123".data ) (by decide) (by decide)⟩

/-! ## Claim C5: policy-column detection -/

theorem colCounts_le (rows : List Row) (cand : Str) :
    (colCounts rows cand).1 ≤ (colCounts rows cand).2 ∧
      (colCounts rows cand).2 ≤ 100 := by
  have aux : ∀ (l : List Row) (vt : Nat × Nat), vt.1 ≤ vt.2 →
      (l.foldl (fun vt row =>
        match rowFind? row cand with
        | some (some v) =>
          if v.isEmpty then vt
          else if is_valid_policy_number v then (vt.1 + 1, vt.2 + 1)
          else (vt.1, vt.2 + 1)
        | _ => vt) vt).1 ≤
        (l.foldl (fun vt row =>
          match rowFind? row cand with
          | some (some v) =>
            if v.isEmpty then vt
            else if is_valid_policy_number v then (vt.1 + 1, vt.2 + 1)
            else (vt.1, vt.2 + 1)
          | _ => vt) vt).2 ∧
      (l.foldl (fun vt row =>
        match rowFind? row cand with
        | some (some v) =>
          if v.isEmpty then vt
          else if is_valid_policy_number v then (vt.1 + 1, vt.2 + 1)
          else (vt.1, vt.2 + 1)
        | _ => vt) vt).2 ≤ vt.2 + l.length := by
    intro l
    induction l with
    | nil => intro vt h; exact ⟨h, by simp⟩
    | cons r rs ih =>
      intro vt h
      rw [List.foldl_cons]
      have hstep : ∀ vt : Nat × Nat, vt.1 ≤ vt.2 →
          ((match rowFind? r cand with
            | some (some v) =>
              if v.isEmpty then vt
              else if is_valid_policy_number v then (vt.1 + 1, vt.2 + 1)
              else (vt.1, vt.2 + 1)
            | _ => vt) : Nat × Nat).1 ≤
          ((match rowFind? r cand with
            | some (some v) =>
              if v.isEmpty then vt
              else if is_valid_policy_number v then (vt.1 + 1, vt.2 + 1)
              else (vt.1, vt.2 + 1)
            | _ => vt) : Nat × Nat).2 ∧
          ((match rowFind? r cand with
            | some (some v) =>
              if v.isEmpty then vt
              else if is_valid_policy_number v then (vt.1 + 1, vt.2 + 1)
              else (vt.1, vt.2 + 1)
            | _ => vt) : Nat × Nat).2 ≤ vt.2 + 1 := by
        intro vt h
        cases hf : rowFind? r cand with
        | none => dsimp only; exact ⟨h, by omega⟩
        | some ov =>
          cases ov with
          | none => dsimp only; exact ⟨h, by omega⟩
          | some v =>
            dsimp only
            by_cases he : v.isEmpty = true
            · simp only [he, if_true]
              exact ⟨h, by omega⟩
            · by_cases hv : is_valid_policy_number v = true
              · simp only [he, hv, Bool.false_eq_true, if_false, if_true]
                exact ⟨by omega, by omega⟩
              · simp only [he, hv, Bool.false_eq_true, if_false]
                exact ⟨by omega, by omega⟩
      obtain ⟨h1, h2⟩ := hstep vt h
      obtain ⟨ih1, ih2⟩ := ih _ h1
      refine ⟨ih1, ?_⟩
      simp only [List.length_cons]
      omega
  obtain ⟨h1, h2⟩ := aux (rows.take 100) (0, 0) (le_refl 0)
  refine ⟨h1, le_trans h2 ?_⟩
  have := List.length_take 100 rows
  simp only [Nat.zero_add]
  omega

/-- One step of the best-candidate fold: either keeps the accumulator or
installs the candidate with its own score. -/
theorem detStep_cases (rows : List Row) (r0 : Row) (best : Option Str × ℚ)
    (c : Str) :
    detStep rows r0 best c = best ∨
    (detStep rows r0 best c = (some c, colScore rows c) ∧
      (rowFind? r0 c).isSome = true ∧ (colCounts rows c).2 ≠ 0 ∧
      best.2 < colScore rows c) := by
  simp only [detStep]
  by_cases h1 : (rowFind? r0 c).isSome = true
  · rw [if_pos h1]
    by_cases h2 : (colCounts rows c).2 ≠ 0
    · rw [if_pos h2]
      by_cases h3 : best.2 < dDiv (qOfNat (colCounts rows c).1)
          (qOfNat (colCounts rows c).2)
      · rw [if_pos h3]
        exact Or.inr ⟨rfl, h1, h2, h3⟩
      · rw [if_neg h3]
        exact Or.inl rfl
    · rw [if_neg h2]
      exact Or.inl rfl
  · rw [if_neg h1]
    exact Or.inl rfl

theorem detFold_snd_le (rows : List Row) (r0 : Row) (cands : List Str)
    (best : Option Str × ℚ) :
    best.2 ≤ (cands.foldl (detStep rows r0) best).2 := by
  induction cands generalizing best with
  | nil => exact le_refl _
  | cons c cs ih =>
    rw [List.foldl_cons]
    refine le_trans ?_ (ih (detStep rows r0 best c))
    rcases detStep_cases rows r0 best c with h | ⟨h, _, _, hlt⟩
    · rw [h]
    · rw [h]
      exact le_of_lt hlt

theorem detFold_inv (rows : List Row) (r0 : Row) (cands : List Str)
    (best : Option Str × ℚ)
    (hb : ((best.1 = none → best.2 = 0) ∧
      (∀ c, best.1 = some c → (rowFind? r0 c).isSome = true ∧
        (colCounts rows c).2 ≠ 0 ∧ best.2 = colScore rows c))) :
    ((cands.foldl (detStep rows r0) best).1 = none →
      (cands.foldl (detStep rows r0) best).2 = 0) ∧
    (∀ c, (cands.foldl (detStep rows r0) best).1 = some c →
      (rowFind? r0 c).isSome = true ∧ (colCounts rows c).2 ≠ 0 ∧
      (cands.foldl (detStep rows r0) best).2 = colScore rows c) := by
  induction cands generalizing best with
  | nil => exact hb
  | cons c cs ih =>
    rw [List.foldl_cons]
    apply ih
    rcases detStep_cases rows r0 best c with h | ⟨h, h1, h2, _⟩
    · rw [h]; exact hb
    · rw [h]
      constructor
      · intro hno; simp at hno
      · intro c2 hc2
        simp only [Option.some_inj] at hc2
        subst hc2
        exact ⟨h1, h2, rfl⟩

theorem detFold_dominates (rows : List Row) (r0 : Row) (cands : List Str)
    (best : Option Str × ℚ) :
    ∀ c ∈ cands, (rowFind? r0 c).isSome = true → (colCounts rows c).2 ≠ 0 →
      colScore rows c ≤ (cands.foldl (detStep rows r0) best).2 := by
  induction cands generalizing best with
  | nil => intro c hc; simp at hc
  | cons c0 cs ih =>
    intro c hc h1 h2
    rw [List.foldl_cons]
    rcases List.mem_cons.1 hc with rfl | hcs
    · refine le_trans ?_ (detFold_snd_le rows r0 cs (detStep rows r0 best c))
      simp only [detStep]
      rw [if_pos h1, if_pos h2]
      by_cases h3 : best.2 < dDiv (qOfNat (colCounts rows c).1)
          (qOfNat (colCounts rows c).2)
      · rw [if_pos h3]
        exact le_of_eq rfl
      · rw [if_neg h3]
        exact le_of_not_lt h3
    · exact ih (detStep rows r0 best c0) c hcs h1 h2

/-- detect_policy_column = some c: c is an eligible candidate whose score
is the final best score, at least the double 0.3, and maximal among all
eligible candidate scores. -/
theorem detect_some_spec {rows : List Row} {r0 : Row} {rest : List Row}
    {c : Str} (h : rows = r0 :: rest) (hd : detect_policy_column rows = some c) :
    (rowFind? r0 c).isSome = true ∧ (colCounts rows c).2 ≠ 0 ∧
    d0_3 ≤ colScore rows c ∧
    (∀ c2 ∈ candidateList rows, (rowFind? r0 c2).isSome = true →
      (colCounts rows c2).2 ≠ 0 → colScore rows c2 ≤ colScore rows c) := by
  subst h
  simp only [detect_policy_column] at hd
  by_cases hge : d0_3 ≤ ((candidateList (r0 :: rest)).foldl
      (detStep (r0 :: rest) r0) (none, 0)).2
  · rw [if_pos hge] at hd
    have hinv := detFold_inv (r0 :: rest) r0 (candidateList (r0 :: rest))
      (none, 0) ⟨fun _ => rfl, fun c hc => by simp at hc⟩
    obtain ⟨h1, h2, h3⟩ := hinv.2 c hd
    rw [h3] at hge
    refine ⟨h1, h2, hge, ?_⟩
    intro c2 hc2 hc2e hc2t
    have := detFold_dominates (r0 :: rest) r0 (candidateList (r0 :: rest))
      (none, 0) c2 hc2 hc2e hc2t
    rw [h3] at this
    exact this
  · rw [if_neg hge] at hd
    exact absurd hd (by simp)

/-- detect_policy_column = none: every eligible candidate with a nonzero
total scores strictly below the double 0.3. -/
theorem detect_none_spec {rows : List Row} {r0 : Row} {rest : List Row}
    (h : rows = r0 :: rest) (hd : detect_policy_column rows = none) :
    ∀ c2 ∈ candidateList rows, (rowFind? r0 c2).isSome = true →
      (colCounts rows c2).2 ≠ 0 → colScore rows c2 < d0_3 := by
  subst h
  simp only [detect_policy_column] at hd
  by_cases hge : d0_3 ≤ ((candidateList (r0 :: rest)).foldl
      (detStep (r0 :: rest) r0) (none, 0)).2
  · rw [if_pos hge] at hd
    have hinv := detFold_inv (r0 :: rest) r0 (candidateList (r0 :: rest))
      (none, 0) ⟨fun _ => rfl, fun c hc => by simp at hc⟩
    have h0 := hinv.1 hd
    rw [h0] at hge
    exact absurd hge (by decide)
  · rw [if_neg hge] at hd
    intro c2 hc2 hc2e hc2t
    have := detFold_dominates (r0 :: rest) r0 (candidateList (r0 :: rest))
      (none, 0) c2 hc2 hc2e hc2t
    exact lt_of_le_of_lt this (lt_of_not_le hge)

/-- When detection fails, the loader takes the first purely-numeric
column, else the first column of the first row. -/
theorem choose_fallback_spec {rows : List Row} {r0 : Row} {rest : List Row}
    (h : rows = r0 :: rest) (hd : detect_policy_column rows = none) :
    (∀ c, numericFallback rows = some c → c.isEmpty = false →
      choosePolicyColumn rows = some c) ∧
    (numericFallback rows = none → ∀ kv t2, r0 = kv :: t2 →
      choosePolicyColumn rows = some kv.1) := by
  subst h
  constructor
  · intro c hnf hne
    simp only [choosePolicyColumn, hd, hnf]
    simp [optTruthy, hne]
  · intro hnf kv t2 hr0
    subst hr0
    simp only [choosePolicyColumn, hd, hnf]
    simp [optTruthy]

set_option maxHeartbeats 400000000 in
/-- The 30% threshold over exact fractions: for every reachable count pair
(the sample has at most 100 rows), the double comparison
`score >= 0.3` agrees with the exact-fraction comparison
`valid / total >= 3 / 10`.  Checked exhaustively. -/
theorem score_bridge : ∀ t < 101, ∀ v < 101, 0 < t → v ≤ t →
    (d0_3 ≤ dDiv (qOfNat v) (qOfNat t) ↔ 3 * t ≤ 10 * v) := by decide

/-- C5: detection returns an eligible candidate iff its score — the
double of valid/total over the up-to-100-row sample — is at least the
double 0.3, which for the reachable counts is exactly the 30% fraction
test; the returned candidate's score is maximal among all eligible
candidates; and when detection returns none every eligible candidate has
fewer than 30% valid values and the loader falls back to the first
purely-numeric column, else the first column. -/
theorem C5_detection_threshold :
    (∀ (rows : List Row) (r0 : Row) (rest : List Row) (c : Str),
      rows = r0 :: rest → detect_policy_column rows = some c →
      (rowFind? r0 c).isSome = true ∧ (colCounts rows c).2 ≠ 0 ∧
      3 * (colCounts rows c).2 ≤ 10 * (colCounts rows c).1 ∧
      (∀ c2 ∈ candidateList rows, (rowFind? r0 c2).isSome = true →
        (colCounts rows c2).2 ≠ 0 → colScore rows c2 ≤ colScore rows c)) ∧
    (∀ (rows : List Row) (r0 : Row) (rest : List Row),
      rows = r0 :: rest → detect_policy_column rows = none →
      ∀ c2 ∈ candidateList rows, (rowFind? r0 c2).isSome = true →
        (colCounts rows c2).2 ≠ 0 →
        10 * (colCounts rows c2).1 < 3 * (colCounts rows c2).2) ∧
    (∀ (rows : List Row) (r0 : Row) (rest : List Row),
      rows = r0 :: rest → detect_policy_column rows = none →
      (∀ c, numericFallback rows = some c → c.isEmpty = false →
        choosePolicyColumn rows = some c) ∧
      (numericFallback rows = none → ∀ kv t2, r0 = kv :: t2 →
        choosePolicyColumn rows = some kv.1)) := by
  refine ⟨?_, ?_, ?_⟩
  · intro rows r0 rest c h hd
    obtain ⟨h1, h2, h3, h4⟩ := detect_some_spec h hd
    refine ⟨h1, h2, ?_, h4⟩
    obtain ⟨hvt, ht100⟩ := colCounts_le rows c
    have hb := score_bridge (colCounts rows c).2 (by omega)
      (colCounts rows c).1 (by omega) (by omega) (by omega)
    exact hb.mp h3
  · intro rows r0 rest h hd c2 hc2 he ht
    have h5 := detect_none_spec h hd c2 hc2 he ht
    obtain ⟨hvt, ht100⟩ := colCounts_le rows c2
    have hb := score_bridge (colCounts rows c2).2 (by omega)
      (colCounts rows c2).1 (by omega) (by omega) (by omega)
    by_contra hcon
    have hge : 3 * (colCounts rows c2).2 ≤ 10 * (colCounts rows c2).1 := by
      omega
    exact absurd h5 (not_lt.mpr (hb.mpr hge))
  · intro rows r0 rest h hd
    exact choose_fallback_spec h hd

/-- C5 witness: a 10-row sample scoring exactly 30% is detected, a
100-row sample scoring 29% is not and falls back to the numeric first
column. -/
theorem C5_witness :
    detect_policy_column c5Rows30 = some ( "Policy".data ) ∧
    3 * (colCounts c5Rows30 ( "Policy".data )).2 ≤
      10 * (colCounts c5Rows30 ( "Policy".data )).1 ∧
    detect_policy_column c5Rows29 = none ∧
    (∀ c2 ∈ candidateList c5Rows29,
      (rowFind? [(( "Code".data ), some ( "12".data ))] c2).isSome = true →
      (colCounts c5Rows29 c2).2 ≠ 0 →
      10 * (colCounts c5Rows29 c2).1 < 3 * (colCounts c5Rows29 c2).2) ∧
    choosePolicyColumn c5Rows29 = some ( "Code".data ) :=
  ⟨by decide,
   (C5_detection_threshold.1 c5Rows30
     [(( "Policy".data ), some ( "123456789".data ))]
     (List.replicate 2 [(( "Policy".data ), some ( "123456789".data ))] ++
       List.replicate 7 [(( "Policy".data ), some ( "X".data ))])
     ( "Policy".data ) (by decide) (by decide)).2.2.1,
   by decide,
   C5_detection_threshold.2.1 c5Rows29
     [(( "Code".data ), some ( "12".data ))]
     (List.replicate 70 [(( "Code".data ), some ( "12".data ))] ++
       List.replicate 29 [(( "Code".data ), some ( "123456789".data ))])
     (by decide) (by decide),
   (C5_detection_threshold.2.2 c5Rows29
     [(( "Code".data ), some ( "12".data ))]
     (List.replicate 70 [(( "Code".data ), some ( "12".data ))] ++
       List.replicate 29 [(( "Code".data ), some ( "123456789".data ))])
     (by decide) (by decide)).1 ( "Code".data ) (by decide) (by decide)⟩

end Unitrust
